import Mathlib

/-!
# BookSwap backend: request ledger and book catalog

A shallow embedding of the Express route handlers of `bookswap-backend`
(`routes/books.js`, `routes/requests.js`, `routes/auth.js`), of the Mongoose
schemas of `models/Book.js` and `models/User.js`, of the route tables mounted
in `server.js`, and of the filter of the client's browse screen
(`app/AvailableBooks.js`).  The document store is an explicit state (`Store`
for books and requests, `UserStore` for users); every handler is a function
from a store and its inputs to the outcome of the call and, when it writes,
the store after the call.
-/

namespace BookSwap

/-! ## Data model -/

/-- A MongoDB ObjectId.  Only equality of identifiers is observed by the
handlers (`toString()` comparison, `findById`), so identifiers are numbers;
a route parameter or token field holding an identifier is the identifier. -/
abbrev ObjectId := Nat

/-- The `image` sub-document of a book: `{ data: Buffer, contentType: String }`. -/
structure Image where
  data : List Nat
  contentType : String
  deriving DecidableEq, Repr

/-- A stored document of `bookSchema` (models/Book.js).  `createdAt`, a wall
clock default that no handler reads, is left out.  `rate` and
`yearOfPublication` are restricted to integers. -/
structure Book where
  _id : ObjectId
  owner : ObjectId
  title : String
  author : String
  category : String
  description : Option String := none
  edition : Option String := none
  isbn : Option String := none
  condition : Option String := none
  yearOfPublication : Option Int := none
  department : Option String := none
  image : Option Image := none
  imageUrl : Option String := none
  rate : Int := 0
  status : String := "available"
  deriving DecidableEq, Repr

/-- Modelled from the spec: `models/Request.js` is required by both routers but
is not among the sources.  The fields are those of the Request entity of the
spec (book, requester, owner, type, optional message, status), which are also
exactly the fields `Request.create` is given in `routes/books.js`. -/
structure Request where
  _id : ObjectId
  book : ObjectId
  requester : ObjectId
  owner : ObjectId
  type : String
  message : Option String := none
  status : String := "pending"
  deriving DecidableEq, Repr

/-- The two collections the book and request routes write, and the source of
fresh ObjectIds (an ObjectId is never issued twice). -/
structure Store where
  books : List Book := []
  requests : List Request := []
  nextId : ObjectId := 0
  deriving DecidableEq, Repr

/-- Modelled from the spec: `middleware/auth.js`, the authentication middleware
both routers require, is not among the sources.  By the spec, `authenticate` "attaches the
decoded identity {id, email} to the request context"; the `authMiddleware`
kept in routes/auth.js does the same (`req.user = decoded; // { id, email }`),
and the payload is the one signed at registration and login,
`jwt.sign({ id: user._id, email: user.email }, ...)`.  A value of this type is
the `req.user` of a call that passed authentication. -/
structure ReqUser where
  id : ObjectId
  email : String
  deriving DecidableEq, Repr

/-- The property read `req.user._id`.  The decoded payload has the keys `id`
and `email` (and the issue time) only, so the read yields `undefined`,
rendered as `none`. -/
def ReqUser._id (_user : ReqUser) : Option ObjectId := none

/-- A stored document of `userSchema` (models/User.js).  The `timestamps`
fields, wall clock values that no handler reads, are left out. -/
structure User where
  _id : ObjectId
  name : String
  department : String
  registerNumber : String
  yearOfStudy : Int
  email : String
  passwordHash : String
  role : String := "user"
  deriving DecidableEq, Repr

/-- The users collection and its source of fresh ObjectIds. -/
structure UserStore where
  users : List User := []
  nextId : ObjectId := 0
  deriving DecidableEq, Repr

/-- The public user summary `{ id, name, email }` of the register and login
responses. -/
structure UserSummary where
  id : ObjectId
  name : String
  email : String
  deriving DecidableEq, Repr

/-- A field value of a document sent as JSON. -/
inductive FieldVal where
  | ref (id : ObjectId)
  | text (s : String)
  | number (n : Int)
  deriving DecidableEq, Repr

/-- The result of `populate('owner', 'name department yearOfStudy')` on a book:
the selected fields of the referenced user (with its `_id`). -/
structure OwnerView where
  _id : ObjectId
  name : String
  department : String
  yearOfStudy : Int
  deriving DecidableEq, Repr

/-- The `image` sub-document as sent in a book list; `data` is absent once
`select('-image.data')` has been applied. -/
structure ImageView where
  data : Option (List Nat)
  contentType : String
  deriving DecidableEq, Repr

/-- A book as sent by the list routes: `owner` is populated (`none` is `null`,
the referenced user does not exist) and `image` went through the projection. -/
structure BookView where
  _id : ObjectId
  owner : Option OwnerView
  title : String
  author : String
  category : String
  description : Option String
  edition : Option String
  isbn : Option String
  condition : Option String
  yearOfPublication : Option Int
  department : Option String
  image : Option ImageView
  imageUrl : Option String
  rate : Int
  status : String
  deriving DecidableEq, Repr

/-- A user reference of a listed request: left as the stored id, or populated
with `populate(path, 'name')` (`none` is `null`). -/
inductive UserRef where
  | id (id : ObjectId)
  | populated (user : Option (ObjectId × String))
  deriving DecidableEq, Repr

/-- A request as sent by the two request list routes: `book` is populated with
the whole referenced document (`none` is `null`). -/
structure RequestView where
  _id : ObjectId
  book : Option Book
  requester : UserRef
  owner : UserRef
  type : String
  message : Option String
  status : String
  deriving DecidableEq, Repr

/-- Bodies sent by the handlers: JSON objects, and for `image` the raw bytes
of `res.send(book.image.data)` together with the `Content-Type` header set
just before. -/
inductive Body where
  | message (message : String)
  | messageBook (message : String) (book : Book)
  | messageRequest (message : String) (request : Request)
  | requestBook (request : Request) (book : Option Book)
  | request (request : Request)
  | tokenUser (token : String) (user : UserSummary)
  | document (fields : List (String × FieldVal))
  | books (success : Bool) (books : List BookView)
  | requests (requests : List RequestView)
  | status (success : Bool) (message : String)
  | image (contentType : String) (data : List Nat)
  deriving DecidableEq, Repr

/-- What a call to a handler ends in: a response written with `res.status(..).json(..)`,
or an exception that escapes the handler (its promise rejects and the handler
itself writes no response). -/
inductive Outcome where
  | response (status : Nat) (body : Body)
  | threw (error : String)
  deriving DecidableEq, Repr

/-- HTTP status of an outcome, if a response was written. -/
def Outcome.status? : Outcome → Option Nat
  | .response status _ => some status
  | .threw _ => none

/-! ## Submitted values -/

/-- A scalar of a request body: form-data text or a JSON number (restricted to
integers). -/
inductive JsVal where
  | str (s : String)
  | num (n : Int)
  deriving DecidableEq, Repr

/-- JavaScript truthiness of an optional text field: `undefined` and the empty
string are falsy. -/
def truthy : Option String → Bool
  | none => false
  | some s => s != ""

/-- An optional text field that is absent or the empty string. -/
def missingOrEmpty (x : Option String) : Prop := x = none ∨ x = some ""

/-- JavaScript truthiness of an optional scalar: `undefined`, the empty
string and the number zero are falsy. -/
def JsVal.truthy : Option JsVal → Bool
  | none => false
  | some (.str s) => s != ""
  | some (.num n) => n != 0

/-- Value of a run of decimal digits, most significant first, continuing from
the value `acc` of the digits already read; `none` if a character is not a digit. -/
def digitsValue : List Char → Nat → Option Nat
  | [], acc => some acc
  | c :: cs, acc => if c.isDigit then digitsValue cs (10 * acc + (c.toNat - 48)) else none

/-- Drops white space at both ends of a character list. -/
def trimChars (cs : List Char) : List Char :=
  ((cs.dropWhile Char.isWhitespace).reverse.dropWhile Char.isWhitespace).reverse

/-- The conversion `Number(text)` for integer numerals: white space is trimmed, the empty text
is 0, an optional sign may precede the digits.  `none` is NaN.  Numerals that
are not integers (fractions, exponents, hexadecimal, Infinity) are outside the
numbers this development represents and are classed with NaN. -/
def numberOfText (s : String) : Option Int :=
  match trimChars s.toList with
  | [] => some 0
  | '-' :: d :: ds => (digitsValue (d :: ds) 0).map fun n => - (n : Int)
  | '+' :: d :: ds => (digitsValue (d :: ds) 0).map fun n => (n : Int)
  | d :: ds => if d.isDigit then (digitsValue (d :: ds) 0).map fun n => (n : Int) else none

/-- The conversion `Number(v)` on a submitted scalar; `none` is NaN. -/
def Number : JsVal → Option Int
  | .num n => some n
  | .str s => numberOfText s

/-- Text fields and numeric fields of `req.body` read by the book routes.  A
field that was not submitted is `undefined`, rendered as `none`.  `owner` is a
field a client may submit although no route reads it. -/
structure BookBody where
  title : Option String := none
  author : Option String := none
  category : Option String := none
  description : Option String := none
  edition : Option String := none
  isbn : Option String := none
  condition : Option String := none
  yearOfPublication : Option JsVal := none
  department : Option String := none
  rate : Option JsVal := none
  status : Option String := none
  owner : Option ObjectId := none
  deriving DecidableEq, Repr

/-- The uploaded file `req.file` that multer keeps in memory. -/
structure File where
  buffer : List Nat
  mimetype : String
  deriving DecidableEq, Repr

/-- The fields `{ type, message }` of `req.body` read by the request route. -/
structure RequestBody where
  type : Option String := none
  message : Option String := none
  deriving DecidableEq, Repr

/-! ## Schemas and collection operations -/

/-- The category enum of `bookSchema` (models/Book.js, lines 2-10). -/
def Book.CATEGORY_OPTIONS : List String :=
  ["Programming", "Networking", "DBMS", "AI", "Maths", "OS", "Deep Learning"]

/-- The status enum of `bookSchema`. -/
def Book.STATUS_ENUM : List String :=
  ["available", "requested", "exchanged", "sold"]

/-- Schema validation of a book document, as run by `Book.create` and
`book.save()`: `title`, `author` and `category` are required (an empty string
fails `required`), `category` and `status` must be members of their enums.
`owner` is always present in a `Book`. -/
def Book.validate (book : Book) : Bool :=
  book.title != "" && book.author != "" && book.category != "" &&
    Book.CATEGORY_OPTIONS.contains book.category && Book.STATUS_ENUM.contains book.status

/-- Modelled from the spec: the enums of the absent `models/Request.js`,
"type (enum: buy | exchange)" and "status (enum: pending | accepted |
rejected; default pending)". -/
def Request.validate (request : Request) : Bool :=
  ["buy", "exchange"].contains request.type &&
    ["pending", "accepted", "rejected"].contains request.status

/-- The query `Book.findById(id)`. -/
def Book.findById (s : Store) (id : ObjectId) : Option Book :=
  s.books.find? fun b => b._id == id

/-- The query `Request.findById(id)`. -/
def Request.findById (s : Store) (id : ObjectId) : Option Request :=
  s.requests.find? fun r => r._id == id

/-- The object handed to `Book.create` by the add-book route.  `rate` and
`yearOfPublication` are results of `Number(..)`, where `none` is NaN. -/
structure BookData where
  owner : ObjectId
  title : String
  author : String
  category : String
  description : Option String
  edition : Option String
  isbn : Option String
  condition : Option String
  yearOfPublication : Option (Option Int)
  department : Option String
  rate : Option Int
  status : String
  image : Option Image

/-- The call `Book.create(bookData)`: cast the numbers (NaN is a cast error),
validate against the schema, then insert under a fresh `_id`.  `none` is the
rejected promise (a ValidationError), in which case nothing is inserted. -/
def Book.create (s : Store) (data : BookData) : Option (Store × Book) :=
  match data.rate, data.yearOfPublication with
  | none, _ => none
  | _, some none => none
  | some rate, year =>
    let book : Book :=
      { _id := s.nextId, owner := data.owner, title := data.title, author := data.author,
        category := data.category, description := data.description, edition := data.edition,
        isbn := data.isbn, condition := data.condition, yearOfPublication := year.join,
        department := data.department, image := data.image, imageUrl := none,
        rate := rate, status := data.status }
    if book.validate then
      some ({ s with books := s.books ++ [book], nextId := s.nextId + 1 }, book)
    else none

/-- The call `book.save()` on a loaded document: validate, then write the
document back under its `_id` (unique in the collection).  `none` is the
rejected promise.  Mongoose validates the required and the modified paths; for
a document that satisfied the schema when it was loaded, which every document
written through `Book.create` and `Book.save` does, that is validation of the
whole document. -/
def Book.save (s : Store) (book : Book) : Option Store :=
  if book.validate then
    some { s with books := s.books.map fun b => if b._id == book._id then book else b }
  else none

/-- The call `book.deleteOne()`. -/
def Book.deleteOne (s : Store) (book : Book) : Store :=
  { s with books := s.books.filter fun b => b._id != book._id }

/-- The call `Request.create({ book, requester, owner, type, message, status })`:
validate, then insert under a fresh `_id`. -/
def Request.create (s : Store) (book requester owner : ObjectId) (type : String)
    (message : Option String) (status : String) : Option (Store × Request) :=
  let request : Request :=
    { _id := s.nextId, book := book, requester := requester, owner := owner, type := type,
      message := message, status := status }
  if request.validate then
    some ({ s with requests := s.requests ++ [request], nextId := s.nextId + 1 }, request)
  else none

/-- The call `request.save()` on a loaded document. -/
def Request.save (s : Store) (request : Request) : Option Store :=
  if request.validate then
    some { s with requests := s.requests.map fun r => if r._id == request._id then request else r }
  else none

/-! ## routes/books.js -/

/-- The category list the book routes check against (routes/books.js, lines 13-22). -/
def CATEGORY_OPTIONS : List String :=
  ["Programming", "Networking", "DBMS", "AI", "Maths", "OS", "Deep Learning", "Other"]

/-- The status list of routes/books.js, line 24. -/
def ALLOWED_STATUSES : List String :=
  ["available", "requested", "exchanged", "sold"]

/-- The test `ALLOWED_STATUSES.includes(status)` on an optional field. -/
def includesOpt (xs : List String) : Option String → Bool
  | none => false
  | some x => xs.contains x

/-- Handler of `POST /api/books` (add book).  Any exception inside the `try`
ends in the 500 response of the `catch`. -/
def addBook (s : Store) (user : ReqUser) (body : BookBody) (file : Option File) :
    Store × Outcome :=
  let ownerId := user.id
  if !truthy body.title || !truthy body.author || !truthy body.category then
    (s, .response 400 (.message "Title, author and category are required"))
  else if !includesOpt CATEGORY_OPTIONS body.category then
    (s, .response 400 (.message "Invalid category"))
  else
    let bookData : BookData :=
      { owner := ownerId
        title := body.title.getD ""
        author := body.author.getD ""
        category := body.category.getD ""
        description := body.description
        edition := body.edition
        isbn := body.isbn
        condition := body.condition
        yearOfPublication :=
          if JsVal.truthy body.yearOfPublication then body.yearOfPublication.map Number else none
        department := body.department
        rate := if JsVal.truthy body.rate then body.rate.bind Number else some 0
        status := if includesOpt ALLOWED_STATUSES body.status then body.status.getD "" else "available"
        image := file.map fun f => { data := f.buffer, contentType := f.mimetype } }
    match Book.create s bookData with
    | some (s', book) => (s', .response 201 (.messageBook "Book added successfully" book))
    | none => (s, .response 500 (.message "Server error"))

/-- The assignment loop `fields.forEach(...)` together with the two numeric
assignments and the image replacement of the update route, applied to the
loaded document.  `none` records a cast error (a numeric field set to NaN),
which makes the following `book.save()` reject. -/
def applyPatch (book : Book) (body : BookBody) (file : Option File) : Option Book :=
  let set (old : String) : Option String → String
    | none => old
    | some v => v
  let setOpt (old : Option String) : Option String → Option String
    | none => old
    | some v => some v
  let book : Book :=
    { book with
      title := set book.title body.title
      author := set book.author body.author
      category := set book.category body.category
      description := setOpt book.description body.description
      edition := setOpt book.edition body.edition
      isbn := setOpt book.isbn body.isbn
      condition := setOpt book.condition body.condition
      department := setOpt book.department body.department
      status := set book.status body.status }
  let year : Option (Option Int) :=
    match body.yearOfPublication with
    | none => some book.yearOfPublication
    | some v => (Number v).map some
  let rate : Option Int :=
    match body.rate with
    | none => some book.rate
    | some v => Number v
  match year, rate with
  | some year, some rate =>
    some { book with
      yearOfPublication := year
      rate := rate
      image := match file with
        | some f => some { data := f.buffer, contentType := f.mimetype }
        | none => book.image }
  | _, _ => none

/-- Handler of `PUT /api/books/:id` (update book). -/
def updateBook (s : Store) (id : ObjectId) (user : ReqUser) (body : BookBody)
    (file : Option File) : Store × Outcome :=
  match Book.findById s id with
  | none => (s, .response 404 (.message "Book not found"))
  | some book =>
    if book.owner != user.id then
      (s, .response 403 (.message "Not authorized"))
    else
      match (applyPatch book body file).bind fun book => (Book.save s book).map fun s' => (s', book) with
      | some (s', book) => (s', .response 200 (.messageBook "Book updated successfully" book))
      | none => (s, .response 500 (.message "Server error"))

/-- Handler of `POST /api/books/:id/request` (send request).  The request is
created before the book is saved, so a failing `book.save()` leaves the new
request in place. -/
def createRequest (s : Store) (id : ObjectId) (user : ReqUser) (body : RequestBody) :
    Store × Outcome :=
  if !includesOpt ["buy", "exchange"] body.type then
    (s, .response 400 (.message "Invalid request type"))
  else
    match Book.findById s id with
    | none => (s, .response 404 (.message "Book not found"))
    | some book =>
      if book.owner == user.id then
        (s, .response 400 (.message "You cannot request your own book"))
      else
        match Request.create s book._id user.id book.owner (body.type.getD "") body.message "pending" with
        | none => (s, .response 500 (.message "Failed to send request"))
        | some (s1, request) =>
          let book := { book with status := "requested" }
          match Book.save s1 book with
          | none => (s1, .response 500 (.message "Failed to send request"))
          | some s2 => (s2, .response 201 (.messageRequest "Request sent successfully" request))

/-- Handler of `DELETE /api/books/:id` (delete book). -/
def deleteBook (s : Store) (id : ObjectId) (user : ReqUser) : Store × Outcome :=
  match Book.findById s id with
  | none => (s, .response 404 (.message "Book not found"))
  | some book =>
    if book.owner != user.id then
      (s, .response 403 (.message "Not authorized"))
    else
      (Book.deleteOne s book, .response 200 (.message "Book deleted successfully"))

/-- Handler of `GET /api/books/:id/image`.  A stored `image.data` is a Buffer,
which is truthy whatever its length. -/
def getImage (s : Store) (id : ObjectId) : Outcome :=
  match Book.findById s id with
  | none => .response 404 (.message "Image not found")
  | some book =>
    match book.image with
    | none => .response 404 (.message "Image not found")
    | some image => .response 200 (.image image.contentType image.data)

/-! ## routes/requests.js -/

/-- Handler of `PATCH /api/books/requests/:id/accept`.  The handler has no
`try`: an exception escapes it.  The owner test evaluates
`req.user._id.toString()`; with `req.user._id` undefined this raises a
TypeError before anything is written. -/
def accept (s : Store) (id : ObjectId) (user : ReqUser) : Store × Outcome :=
  match Request.findById s id with
  | none => (s, .response 404 (.message "Request not found"))
  | some request =>
    match user._id with
    | none => (s, .threw "TypeError")
    | some userId =>
      if request.owner != userId then
        (s, .response 403 (.message "Not authorized"))
      else
        let request := { request with status := "accepted" }
        match Request.save s request with
        | none => (s, .threw "ValidationError")
        | some s1 =>
          match Book.findById s1 request.book with
          | none => (s1, .response 200 (.requestBook request none))
          | some book =>
            let book := { book with status := if request.type == "buy" then "sold" else "exchanged" }
            match Book.save s1 book with
            | none => (s1, .threw "ValidationError")
            | some s2 => (s2, .response 200 (.requestBook request (some book)))

/-- Handler of `PATCH /api/books/requests/:id/reject`. -/
def reject (s : Store) (id : ObjectId) (user : ReqUser) : Store × Outcome :=
  match Request.findById s id with
  | none => (s, .response 404 (.message "Request not found"))
  | some request =>
    match user._id with
    | none => (s, .threw "TypeError")
    | some userId =>
      if request.owner != userId then
        (s, .response 403 (.message "Not authorized"))
      else
        let request := { request with status := "rejected" }
        match Request.save s request with
        | none => (s, .threw "ValidationError")
        | some s1 => (s1, .response 200 (.request request))

/-! ## The list routes -/

/-- The projection `select('-image.data')` on the image sub-document. -/
def Image.withoutData (image : Image) : ImageView :=
  { data := none, contentType := image.contentType }

/-- The call `populate('owner', 'name department yearOfStudy')` for one book. -/
def populateOwner (users : List User) (owner : ObjectId) : Option OwnerView :=
  (users.find? fun u => u._id == owner).map fun u =>
    { _id := u._id, name := u.name, department := u.department, yearOfStudy := u.yearOfStudy }

/-- A found book after `populate('owner', ...)` and `select('-image.data')`. -/
def Book.view (users : List User) (b : Book) : BookView :=
  { _id := b._id, owner := populateOwner users b.owner, title := b.title, author := b.author,
    category := b.category, description := b.description, edition := b.edition, isbn := b.isbn,
    condition := b.condition, yearOfPublication := b.yearOfPublication,
    department := b.department, image := b.image.map Image.withoutData,
    imageUrl := b.imageUrl, rate := b.rate, status := b.status }

/-- Handler of `GET /api/books/available`: the query
`Book.find({ status: 'available', owner: { $ne: req.user.id } })`, populated and
projected, in collection order. -/
def listAvailable (s : Store) (users : List User) (user : ReqUser) : Outcome :=
  let books := s.books.filter fun b => b.status == "available" && b.owner != user.id
  .response 200 (.books true (books.map (Book.view users)))

/-- Handler of `GET /api/books` (the caller's own books). -/
def listMine (s : Store) (users : List User) (user : ReqUser) : Outcome :=
  let books := s.books.filter fun b => b.owner == user.id
  .response 200 (.books true (books.map (Book.view users)))

/-- The equality condition `{ path: value }` of a query on a reference path.
An `undefined` value is not cast and is sent to the database as `null`, which
matches the documents that lack the path; every stored request carries its
`requester` and its `owner`, so no request matches. -/
def refMatches (stored : ObjectId) : Option ObjectId → Bool
  | some value => stored == value
  | none => false

/-- The call `populate(path, 'name')` for one user reference. -/
def populateName (users : List User) (id : ObjectId) : UserRef :=
  .populated ((users.find? fun u => u._id == id).map fun u => (u._id, u.name))

/-- Handler of `GET /api/books/requests/sent`: the query
`Request.find({ requester: req.user._id })` with `book` and the owner's name
populated. -/
def listSent (s : Store) (users : List User) (user : ReqUser) : Outcome :=
  let requests := s.requests.filter fun r => refMatches r.requester user._id
  .response 200 (.requests (requests.map fun r =>
    { _id := r._id, book := Book.findById s r.book, requester := .id r.requester,
      owner := populateName users r.owner, type := r.type, message := r.message,
      status := r.status }))

/-- Handler of `GET /api/books/requests/received`: the query
`Request.find({ owner: req.user._id })` with `book` and the requester's name
populated. -/
def listReceived (s : Store) (users : List User) (user : ReqUser) : Outcome :=
  let requests := s.requests.filter fun r => refMatches r.owner user._id
  .response 200 (.requests (requests.map fun r =>
    { _id := r._id, book := Book.findById s r.book, requester := populateName users r.requester,
      owner := .id r.owner, type := r.type, message := r.message, status := r.status }))

/-! ## routes/auth.js -/

/-- The two functions of the bcryptjs library the auth routes call:
`hash(password, salt)` and `compare(password, hash)`. -/
structure Bcrypt where
  hash : String → String → String
  compare : String → String → Bool

/-- The two functions of the jsonwebtoken library the auth routes call, under
the secret of the server: `sign(payload, secret)` and `verify(token, secret)`,
where `none` is a failed verification. -/
structure Jwt where
  sign : ReqUser → String
  verify : String → Option ReqUser

/-- The fields of `req.body` read by the register route. -/
structure RegisterBody where
  name : Option String := none
  department : Option String := none
  registerNumber : Option String := none
  yearOfStudy : Option JsVal := none
  email : Option String := none
  password : Option String := none
  deriving DecidableEq, Repr

/-- The fields of `req.body` read by the login route. -/
structure LoginBody where
  email : Option String := none
  password : Option String := none
  deriving DecidableEq, Repr

/-- The query `User.findOne({ email })`.  An `undefined` email matches no user,
every user carrying an email. -/
def User.findOneByEmail (us : UserStore) (email : Option String) : Option User :=
  us.users.find? fun u => some u.email == email

/-- The query `User.findOne({ registerNumber })`. -/
def User.findOneByRegisterNumber (us : UserStore) (registerNumber : Option String) :
    Option User :=
  us.users.find? fun u => some u.registerNumber == registerNumber

/-- The query `User.findById(id)`. -/
def User.findById (us : UserStore) (id : ObjectId) : Option User :=
  us.users.find? fun u => u._id == id

/-- The call `User.create({...})`: cast `yearOfStudy` to a number (NaN is a cast
error), check the required strings, insert under a fresh `_id` unless the
unique indexes on `email` and `registerNumber` reject the document.  `none` is
the rejected promise. -/
def User.create (us : UserStore) (name department registerNumber : String)
    (yearOfStudy : Option Int) (email passwordHash : String) : Option (UserStore × User) :=
  match yearOfStudy with
  | none => none
  | some year =>
    let user : User :=
      { _id := us.nextId, name := name, department := department,
        registerNumber := registerNumber, yearOfStudy := year, email := email,
        passwordHash := passwordHash, role := "user" }
    if name != "" && department != "" && registerNumber != "" && email != "" &&
        passwordHash != "" &&
        !(us.users.any fun u => u.email == email) &&
        !(us.users.any fun u => u.registerNumber == registerNumber) then
      some ({ us with users := us.users ++ [user], nextId := us.nextId + 1 }, user)
    else none

/-- Handler of `POST /api/auth/register`.  `salt` is the value `bcrypt.genSalt(10)`
returned for this call. -/
def register (bcrypt : Bcrypt) (jwt : Jwt) (us : UserStore) (body : RegisterBody)
    (salt : String) : UserStore × Outcome :=
  if !truthy body.name || !truthy body.department || !truthy body.registerNumber ||
      !JsVal.truthy body.yearOfStudy || !truthy body.email || !truthy body.password then
    (us, .response 400 (.message "All fields are required"))
  else if (User.findOneByEmail us body.email).isSome then
    (us, .response 400 (.message "Email exists"))
  else if (User.findOneByRegisterNumber us body.registerNumber).isSome then
    (us, .response 400 (.message "Register number exists"))
  else
    let passwordHash := bcrypt.hash (body.password.getD "") salt
    match User.create us (body.name.getD "") (body.department.getD "")
        (body.registerNumber.getD "") (body.yearOfStudy.bind Number) (body.email.getD "")
        passwordHash with
    | none => (us, .response 500 (.message "Server error"))
    | some (us', user) =>
      let token := jwt.sign { id := user._id, email := user.email }
      (us', .response 200
        (.tokenUser token { id := user._id, name := user.name, email := user.email }))

/-- Handler of `POST /api/auth/login`.  `bcrypt.compare` rejects when the
password is not a string, which the `catch` answers with 500. -/
def login (bcrypt : Bcrypt) (jwt : Jwt) (us : UserStore) (body : LoginBody) : Outcome :=
  match User.findOneByEmail us body.email with
  | none => .response 400 (.message "Invalid credentials")
  | some user =>
    match body.password with
    | none => .response 500 (.message "Server error")
    | some password =>
      if !bcrypt.compare password user.passwordHash then
        .response 400 (.message "Invalid credentials")
      else
        let token := jwt.sign { id := user._id, email := user.email }
        .response 200
          (.tokenUser token { id := user._id, name := user.name, email := user.email })

/-- The JavaScript call `text.split(" ")` on the characters of a text: the
pieces between single spaces, empty pieces included. -/
def splitSpace : List Char → List (List Char)
  | [] => [[]]
  | c :: cs =>
    if c == ' ' then [] :: splitSpace cs
    else
      match splitSpace cs with
      | w :: ws => (c :: w) :: ws
      | [] => [[c]]

/-- The expression `req.headers['authorization']?.split(" ")[1]`. -/
def bearerToken (authorization : Option String) : Option String :=
  authorization.bind fun header => ((splitSpace header.toList)[1]?).map String.mk

/-- What the authentication middleware does with a request: it writes a
response itself, or it calls `next()` after setting `req.user`. -/
inductive AuthResult where
  | response (status : Nat) (body : Body)
  | next (user : ReqUser)
  deriving DecidableEq, Repr

/-- The function `authMiddleware(req, res, next)` of routes/auth.js. -/
def authMiddleware (jwt : Jwt) (authorization : Option String) : AuthResult :=
  let token := bearerToken authorization
  if !truthy token then .response 401 (.message "No token provided")
  else
    match jwt.verify (token.getD "") with
    | none => .response 403 (.message "Invalid token")
    | some decoded => .next decoded

/-- The fields of a user document as sent by `res.json(user)`. -/
def User.toObject (u : User) : List (String × FieldVal) :=
  [("_id", .ref u._id), ("name", .text u.name), ("department", .text u.department),
   ("registerNumber", .text u.registerNumber), ("yearOfStudy", .number u.yearOfStudy),
   ("email", .text u.email), ("passwordHash", .text u.passwordHash), ("role", .text u.role)]

/-- The projection `select("-" + path)` on the fields of a document. -/
def selectWithout (path : String) (fields : List (String × FieldVal)) :
    List (String × FieldVal) :=
  fields.filter fun kv => kv.1 != path

/-- Handler of `GET /api/auth/me`, behind `authMiddleware`. -/
def me (us : UserStore) (user : ReqUser) : Outcome :=
  match (User.findById us user.id).map fun u => selectWithout "passwordHash" u.toObject with
  | none => .response 404 (.message "User not found")
  | some fields => .response 200 (.document fields)

/-- The user store after a sequence of register calls from the empty store,
earliest first; each call comes with the salt generated for it. -/
def runRegister (bcrypt : Bcrypt) (jwt : Jwt) (calls : List (RegisterBody × String)) :
    UserStore :=
  calls.foldl (fun us c => (register bcrypt jwt us c.1 c.2).1) {}

/-! ## server.js: the route tables and their mounting -/

/-- The HTTP methods the routers register handlers for. -/
inductive Method where
  | GET | POST | PUT | PATCH | DELETE
  deriving DecidableEq, Repr

/-- A segment of a route path: a literal, or a parameter such as `:id`. -/
inductive Segment where
  | lit (text : String)
  | param (name : String)
  deriving DecidableEq, Repr

/-- The route handlers of the three routers and of the app. -/
inductive Handler where
  | register | login | logout | me
  | addBook | listAvailable | listMine | updateBook | createRequest | deleteBook | getImage
  | listSent | listReceived | accept | reject
  | health
  deriving DecidableEq, Repr

/-- One `router.METHOD(path, [auth,] handler)` registration; `auth` tells whether
the authentication middleware stands before the handler. -/
structure Route where
  method : Method
  path : List Segment
  auth : Bool
  handler : Handler
  deriving DecidableEq, Repr

/-- The registrations of routes/auth.js, in source order. -/
def authRouter : List Route :=
  [ { method := .POST, path := [.lit "register"], auth := false, handler := .register },
    { method := .POST, path := [.lit "login"], auth := false, handler := .login },
    { method := .POST, path := [.lit "logout"], auth := false, handler := .logout },
    { method := .GET, path := [.lit "me"], auth := true, handler := .me } ]

/-- The registrations of routes/books.js, in source order. -/
def booksRouter : List Route :=
  [ { method := .POST, path := [], auth := true, handler := .addBook },
    { method := .GET, path := [.lit "available"], auth := true, handler := .listAvailable },
    { method := .GET, path := [], auth := true, handler := .listMine },
    { method := .PUT, path := [.param "id"], auth := true, handler := .updateBook },
    { method := .POST, path := [.param "id", .lit "request"], auth := true,
      handler := .createRequest },
    { method := .DELETE, path := [.param "id"], auth := true, handler := .deleteBook },
    { method := .GET, path := [.param "id", .lit "image"], auth := false,
      handler := .getImage } ]

/-- The registrations of routes/requests.js, in source order. -/
def requestsRouter : List Route :=
  [ { method := .GET, path := [.lit "sent"], auth := true, handler := .listSent },
    { method := .GET, path := [.lit "received"], auth := true, handler := .listReceived },
    { method := .PATCH, path := [.param "id", .lit "accept"], auth := true,
      handler := .accept },
    { method := .PATCH, path := [.param "id", .lit "reject"], auth := true,
      handler := .reject } ]

/-- A path segment of a request against a segment of a route path: a literal
must be the segment, a parameter takes any non-empty segment. -/
def Segment.matches : Segment → String → Bool
  | .lit text, segment => segment == text
  | .param _, segment => segment != ""

/-- A route path against the segments of a request path, segment by segment
and to the end of both. -/
def pathMatches : List Segment → List String → Bool
  | [], [] => true
  | p :: ps, segment :: segments => p.matches segment && pathMatches ps segments
  | _, _ => false

/-- Whether a registration takes a request with this method and this path
(relative to the mount point of its router). -/
def Route.matches (r : Route) (method : Method) (path : List String) : Bool :=
  r.method == method && pathMatches r.path path

/-- A router tries its registrations in order; `none` means it calls `next()`. -/
def routerDispatch (routes : List Route) (method : Method) (path : List String) :
    Option Route :=
  routes.find? fun r => r.matches method path

/-- The path that is left after the mount point, if the request path starts
with the mount point. -/
def stripMount : List String → List String → Option (List String)
  | [], path => some path
  | m :: ms, segment :: segments => if segment == m then stripMount ms segments else none
  | _ :: _, [] => none

/-- The mounts of server.js, in source order, followed by the health route of
the app itself. -/
def mounts : List (List String × List Route) :=
  [ (["api", "auth"], authRouter),
    (["api", "books"], booksRouter),
    (["api", "books", "requests"], requestsRouter),
    (["api", "health"], [{ method := .GET, path := [], auth := false, handler := .health }]) ]

/-- The registration that handles a request: the first mount, in order, whose
mount point starts the path and whose router has a matching registration. -/
def dispatchIn : List (List String × List Route) → Method → List String → Option Route
  | [], _, _ => none
  | (mount, routes) :: rest, method, path =>
    match (stripMount mount path).bind fun p => routerDispatch routes method p with
    | some r => some r
    | none => dispatchIn rest method path

/-- The registration of the app that handles a request. -/
def dispatch (method : Method) (path : List String) : Option Route :=
  dispatchIn mounts method path

/-- The body of the 500 response sent by the `catch` block around the storage
operations of a handler; `none` for a handler whose code has no `try`. -/
def Handler.catchBody : Handler → Option Body
  | .register | .login | .me => some (.message "Server error")
  | .addBook | .updateBook | .deleteBook | .getImage => some (.message "Server error")
  | .listAvailable => some (.status false "Failed to fetch books")
  | .listMine => some (.status false "Failed to fetch my books")
  | .createRequest => some (.message "Failed to send request")
  | .listSent | .listReceived | .accept | .reject => none
  | .logout | .health => none

/-- Whether the handler performs a storage operation at all. -/
def Handler.usesStorage : Handler → Bool
  | .logout | .health => false
  | _ => true

/-- What a call ends in when a storage operation of the handler rejects: the
500 response of the enclosing `catch`, or, without a `try`, the rejection
itself leaving the handler. -/
def Handler.onStorageFailure (h : Handler) : Outcome :=
  match h.catchBody with
  | some body => .response 500 body
  | none => .threw "MongoError"

/-! ## app/AvailableBooks.js: the client's filter -/

/-- The call `text.includes(needle)` on the characters of two texts. -/
def includesChars (text needle : List Char) : Bool :=
  text.tails.any fun t => needle.isPrefixOf t

/-- The function `applyFilters(booksList, searchText, category)` of the browse
screen.  `toLowerCase` is the string method of that name; `category` is the
selected category or `null`. -/
def applyFilters (toLowerCase : String → String) (booksList : List BookView)
    (searchText : String) (category : Option String) : List BookView :=
  booksList.filter fun b =>
    (!truthy category || some b.category == category) &&
    (searchText == "" ||
      includesChars (toLowerCase b.title).toList (toLowerCase searchText).toList)

/-! ## Sequences of calls -/


/-- A call to one of the two mutating request-ledger routes. -/
inductive LedgerCall where
  | accept (id : ObjectId) (user : ReqUser)
  | reject (id : ObjectId) (user : ReqUser)
  deriving DecidableEq, Repr

/-- The store after one ledger call. -/
def LedgerCall.run (s : Store) : LedgerCall → Store
  | .accept id user => (BookSwap.accept s id user).1
  | .reject id user => (BookSwap.reject s id user).1

/-- A call to one of the mutating routes of the API. -/
inductive Call where
  | addBook (user : ReqUser) (body : BookBody) (file : Option File)
  | updateBook (id : ObjectId) (user : ReqUser) (body : BookBody) (file : Option File)
  | deleteBook (id : ObjectId) (user : ReqUser)
  | createRequest (id : ObjectId) (user : ReqUser) (body : RequestBody)
  | accept (id : ObjectId) (user : ReqUser)
  | reject (id : ObjectId) (user : ReqUser)

/-- The store and outcome of one API call. -/
def Call.run (s : Store) : Call → Store × Outcome
  | .addBook user body file => BookSwap.addBook s user body file
  | .updateBook id user body file => BookSwap.updateBook s id user body file
  | .deleteBook id user => BookSwap.deleteBook s id user
  | .createRequest id user body => BookSwap.createRequest s id user body
  | .accept id user => BookSwap.accept s id user
  | .reject id user => BookSwap.reject s id user

/-- The store after a sequence of API calls, earliest first. -/
def runCalls (s : Store) (calls : List Call) : Store :=
  calls.foldl (fun s c => (c.run s).1) s

/-- The consistency of requests with books that the API maintains: requester
and owner of a request differ, a request's owner is the owner of every stored
book with the referenced id, stored and referenced ids are older than the next
fresh id, and stored books with equal ids have equal owners. -/
structure Inv (s : Store) : Prop where
  distinct : ∀ r ∈ s.requests, r.requester ≠ r.owner
  owner : ∀ r ∈ s.requests, ∀ b ∈ s.books, b._id = r.book → b.owner = r.owner
  bookFresh : ∀ b ∈ s.books, b._id < s.nextId
  refFresh : ∀ r ∈ s.requests, r.book < s.nextId
  unique : ∀ b ∈ s.books, ∀ b' ∈ s.books, b._id = b'._id → b.owner = b'.owner

/-- The books with the given id all belong to `owner`, and the id is older than
the next fresh id. -/
def OwnedBy (s : Store) (id owner : ObjectId) : Prop :=
  id < s.nextId ∧ ∀ x ∈ s.books, x._id = id → x.owner = owner

/-- Whether a call goes to one of the two mutating request-ledger routes. -/
def Call.isLedger : Call → Bool
  | .accept _ _ => true
  | .reject _ _ => true
  | _ => false

/-- Two requests that agree in everything but, possibly, the status. -/
def sameButStatus (r r' : Request) : Prop :=
  r'._id = r._id ∧ r'.book = r.book ∧ r'.requester = r.requester ∧ r'.owner = r.owner ∧
    r'.type = r.type ∧ r'.message = r.message

/-! ## Example stores -/

/-- A store with one requested book of user 1 and one pending "buy" request
on it by user 2. -/
def exampleStore : Store :=
  { books := [{ _id := 0, owner := 1, title := "SICP", author := "Abelson",
                category := "Programming", status := "requested" }]
    requests := [{ _id := 1, book := 0, requester := 2, owner := 1, type := "buy" }]
    nextId := 2 }

/-- The identity of user 1, owner of the book and of the request in `exampleStore`. -/
def ownerUser : ReqUser := { id := 1, email := "owner@example.com" }

/-- The identity of user 2, the requester in `exampleStore`. -/
def otherUser : ReqUser := { id := 2, email := "other@example.com" }

/-- A run of the API from the empty store: user 1 adds a book, user 2 asks to
buy it, user 1 edits the title and tries to accept. -/
def exampleCalls : List Call :=
  [ .addBook ownerUser { title := some "SICP", author := some "Abelson",
                         category := some "Programming", rate := some (.str "100") } none,
    .createRequest 0 otherUser { type := some "buy", message := some "for my course" },
    .updateBook 0 ownerUser { title := some "SICP, 2nd edition" } none,
    .accept 1 ownerUser ]

/-- A stand-in for bcryptjs in the examples: the "hash" is the salt, a dollar
sign and the password. -/
def exampleBcrypt : Bcrypt :=
  { hash := fun password salt => salt ++ "$" ++ password
    compare := fun password hash =>
      ((hash.toList.dropWhile fun c => c != '$').drop 1) == password.toList }

/-- A stand-in for jsonwebtoken in the examples: it knows the identities of
users 1 and 2 only. -/
def exampleJwt : Jwt :=
  { sign := fun payload => "jwt." ++ payload.email
    verify := fun token => [ownerUser, otherUser].find? fun p => "jwt." ++ p.email == token }

/-- A user store with users 1 and 2, whose passwords are "secret1" and "secret2". -/
def exampleUsers : UserStore :=
  { users := [{ _id := 1, name := "Asha", department := "CSE", registerNumber := "R001",
                yearOfStudy := 3, email := "owner@example.com",
                passwordHash := "salt1$secret1" },
              { _id := 2, name := "Binu", department := "ECE", registerNumber := "R002",
                yearOfStudy := 2, email := "other@example.com",
                passwordHash := "salt2$secret2" }]
    nextId := 3 }

/-- A registration of a third user. -/
def exampleRegistration : RegisterBody :=
  { name := some "Chitra", department := some "EEE", registerNumber := some "R003",
    yearOfStudy := some (.str "1"), email := some "chitra@example.com",
    password := some "secret3" }

/-- A store with one book of user 1 and two pending requests on it, sent by
users 2 and 3. -/
def twoRequestStore : Store :=
  { books := [{ _id := 0, owner := 1, title := "SICP", author := "Abelson",
                category := "Programming", status := "requested" }]
    requests := [{ _id := 1, book := 0, requester := 2, owner := 1, type := "buy" },
                 { _id := 2, book := 0, requester := 3, owner := 1, type := "exchange" }]
    nextId := 3 }

/-- A patch by the owner that renames the book, sets a rate as decimal text,
and tries to hand the book to user 2. -/
def examplePatch : BookBody :=
  { title := some "SICP, 2nd edition", rate := some (.str "250"), owner := some 2 }

/-- The book of `exampleStore` after `examplePatch`. -/
def patchedBook : Book :=
  { _id := 0, owner := 1, title := "SICP, 2nd edition", author := "Abelson",
    category := "Programming", rate := 250, status := "requested" }

/-- A run of the API after which a request outlives its book: user 1 adds a
book, user 2 asks to buy it, user 1 deletes the book. -/
def orphanCalls : List Call :=
  [ .addBook ownerUser { title := some "SICP", author := some "Abelson",
                         category := some "Programming" } none,
    .createRequest 0 otherUser { type := some "buy" },
    .deleteBook 0 ownerUser ]

/-- The store after `orphanCalls`: no book, and the request on book 0. -/
def orphanStore : Store :=
  { books := []
    requests := [{ _id := 1, book := 0, requester := 2, owner := 1, type := "buy" }]
    nextId := 2 }

/-- A stand-in for `toLowerCase` in the examples: the letters A to Z are
mapped to a to z. -/
def asciiLower (text : String) : String :=
  String.mk (text.toList.map Char.toLower)

/-- The view of a book with the given id, title and category, for the client
examples. -/
def exampleView (id : ObjectId) (title category : String) : BookView :=
  { _id := id, owner := none, title := title, author := "Someone", category := category,
    description := none, edition := none, isbn := none, condition := none,
    yearOfPublication := none, department := none, image := none, imageUrl := none,
    rate := 0, status := "available" }

/-! ## Facts about the request routes -/

/-- The accept handler never writes: it answers 404 for an unknown id and
otherwise raises at the owner test. -/
theorem accept_eq (s : Store) (id : ObjectId) (user : ReqUser) :
    accept s id user =
      match Request.findById s id with
      | none => (s, .response 404 (.message "Request not found"))
      | some _ => (s, .threw "TypeError") := by
  unfold accept
  cases Request.findById s id <;> rfl

/-- The reject handler never writes either. -/
theorem reject_eq (s : Store) (id : ObjectId) (user : ReqUser) :
    reject s id user =
      match Request.findById s id with
      | none => (s, .response 404 (.message "Request not found"))
      | some _ => (s, .threw "TypeError") := by
  unfold reject
  cases Request.findById s id <;> rfl

theorem accept_store (s : Store) (id : ObjectId) (user : ReqUser) :
    (accept s id user).1 = s := by
  rw [accept_eq]; cases Request.findById s id <;> rfl

theorem reject_store (s : Store) (id : ObjectId) (user : ReqUser) :
    (reject s id user).1 = s := by
  rw [reject_eq]; cases Request.findById s id <;> rfl

/-- C1 (evaluation at the failing input): in `exampleStore` the request 1
exists, user 1 is its owner and its book 0 exists, yet `accept` writes no
response and changes nothing: the owner test raises a TypeError, the request
stays "pending" and the book stays "requested". -/
theorem accept_by_owner_throws :
    accept exampleStore 1 ownerUser = (exampleStore, .threw "TypeError") ∧
    (Request.findById exampleStore 1).map (fun r => (r.owner, r.status)) = some (1, "pending") ∧
    (Book.findById exampleStore 0).map (fun b => b.status) = some "requested" := by
  decide

theorem Book.findById_id {s : Store} {id : ObjectId} {b : Book}
    (h : Book.findById s id = some b) : b._id = id := by
  have := List.find?_some h
  simpa using this

theorem Book.findById_mem {s : Store} {id : ObjectId} {b : Book}
    (h : Book.findById s id = some b) : b ∈ s.books :=
  List.mem_of_find?_eq_some h

/-- Looking a document up after it was written back under its own `_id`. -/
theorem find?_map_replace (books : List Book) (id : ObjectId) (b b' : Book)
    (h : books.find? (fun x => x._id == id) = some b) (hid : b'._id = id) :
    (books.map fun x => if x._id == id then b' else x).find? (fun x => x._id == id) = some b' := by
  induction books with
  | nil => simp at h
  | cons x xs ih =>
    by_cases hx : x._id = id
    · simp [hx, hid]
    · have hx' : (x._id == id) = false := by simpa using hx
      simp only [List.find?_cons, hx'] at h
      simp only [List.map_cons, hx', Bool.false_eq_true, if_false, List.find?_cons]
      exact ih h

/-- C3: for every store, every book b found under the given id (a document
satisfying the book schema, whatever its status), every caller whose id
differs from b's owner, every type among "buy" and "exchange" and every
optional message, the send-request route answers 201 with the new request;
afterwards the request collection is the old one followed by exactly that
request (status "pending", book = the id, requester = the caller, owner =
b's owner, the given type and message), and the book found under the id is b
with status "requested". -/
theorem createRequest_succeeds (s : Store) (id : ObjectId) (user : ReqUser) (b : Book)
    (type : String) (message : Option String)
    (hb : Book.findById s id = some b) (hschema : b.validate = true)
    (hcaller : user.id ≠ b.owner) (htype : type = "buy" ∨ type = "exchange") :
    ∃ s' r,
      createRequest s id user { type := some type, message := message } =
        (s', .response 201 (.messageRequest "Request sent successfully" r)) ∧
      r = { _id := s.nextId, book := id, requester := user.id, owner := b.owner,
            type := type, message := message, status := "pending" } ∧
      s'.requests = s.requests ++ [r] ∧
      Book.findById s' id = some { b with status := "requested" } := by
  have hid : b._id = id := Book.findById_id hb
  subst hid
  have hrv : Request.validate
      { _id := s.nextId, book := b._id, requester := user.id, owner := b.owner, type := type,
        message := message, status := "pending" } = true := by
    rcases htype with h | h <;> simp [Request.validate, h]
  have hbv : Book.validate { b with status := "requested" } = true := by
    simp only [Book.validate, Bool.and_eq_true] at hschema ⊢
    exact ⟨hschema.1, by decide⟩
  have hinc : includesOpt ["buy", "exchange"] (some type) = true := by
    rcases htype with h | h <;> simp [includesOpt, h]
  have howner : (b.owner == user.id) = false := by
    simpa using fun h => hcaller h.symm
  refine ⟨{ books := s.books.map
                (fun x => if x._id == b._id then { b with status := "requested" } else x),
             requests := s.requests ++ [{ _id := s.nextId, book := b._id, requester := user.id,
                                          owner := b.owner, type := type, message := message,
                                          status := "pending" }],
             nextId := s.nextId + 1 }, _, ?_, rfl, rfl, ?_⟩
  · simp only [createRequest, hinc, hb, howner, Request.create, hrv, Book.save, hbv,
      Bool.not_true, Bool.false_eq_true, if_false, if_true, Option.getD_some]
  · simp only [Book.findById]
    exact find?_map_replace s.books b._id b _ hb rfl

theorem createRequest_succeeds_witness :
    ∃ s' r,
      createRequest exampleStore 0 otherUser { type := some "exchange", message := some "hi" } =
        (s', .response 201 (.messageRequest "Request sent successfully" r)) ∧
      r = { _id := 2, book := 0, requester := 2, owner := 1,
            type := "exchange", message := some "hi", status := "pending" } ∧
      s'.requests = exampleStore.requests ++ [r] ∧
      Book.findById s' 0 =
        some { _id := 0, owner := 1, title := "SICP", author := "Abelson",
               category := "Programming", status := "requested" } :=
  createRequest_succeeds exampleStore 0 otherUser
    { _id := 0, owner := 1, title := "SICP", author := "Abelson",
      category := "Programming", status := "requested" }
    "exchange" (some "hi") (by decide) (by decide) (by decide) (by decide)

/-- C4: for every store, every book b found under the given id, every request
body (any type, valid or not, and any message), the send-request route called
by b's owner answers 400 with a message and returns the store as it was: no
request is created and b keeps its status. -/
theorem createRequest_by_owner_fails (s : Store) (id : ObjectId) (user : ReqUser)
    (body : RequestBody) (b : Book)
    (hb : Book.findById s id = some b) (howner : user.id = b.owner) :
    ∃ msg, createRequest s id user body = (s, .response 400 (.message msg)) := by
  unfold createRequest
  by_cases ht : includesOpt ["buy", "exchange"] body.type = true
  · refine ⟨"You cannot request your own book", ?_⟩
    simp [ht, hb, howner]
  · refine ⟨"Invalid request type", ?_⟩
    simp [ht]

theorem createRequest_by_owner_fails_witness :
    ∃ msg, createRequest exampleStore 0 ownerUser { type := some "buy", message := none } =
      (exampleStore, .response 400 (.message msg)) :=
  createRequest_by_owner_fails exampleStore 0 ownerUser { type := some "buy", message := none }
    { _id := 0, owner := 1, title := "SICP", author := "Abelson",
      category := "Programming", status := "requested" } (by decide) (by decide)

/-- C5 (evaluation at the failing input): in `exampleStore` user 2 is not the
owner of request 1, yet neither `accept` nor `reject` answers 403: both raise
a TypeError at the owner test and write no response.  The store is unchanged,
and an id that names no request (7) is answered with 404 by both. -/
theorem accept_reject_by_non_owner_throw :
    accept exampleStore 1 otherUser = (exampleStore, .threw "TypeError") ∧
    reject exampleStore 1 otherUser = (exampleStore, .threw "TypeError") ∧
    accept exampleStore 7 otherUser =
      (exampleStore, .response 404 (.message "Request not found")) ∧
    reject exampleStore 7 otherUser =
      (exampleStore, .response 404 (.message "Request not found")) := by
  decide

/-- C6: for every store, every book b found under the given id, every caller
whose id differs from b's owner, every submitted body and every optional
image file, the update route and the delete route both answer 403 "Not
authorized" and return the store as it was. -/
theorem update_delete_by_non_owner_fail (s : Store) (id : ObjectId) (user : ReqUser)
    (body : BookBody) (file : Option File) (b : Book)
    (hb : Book.findById s id = some b) (hcaller : user.id ≠ b.owner) :
    updateBook s id user body file = (s, .response 403 (.message "Not authorized")) ∧
    deleteBook s id user = (s, .response 403 (.message "Not authorized")) := by
  have howner : (b.owner != user.id) = true := by
    simpa using fun h => hcaller h.symm
  constructor
  · simp only [updateBook, hb, howner, if_true]
  · simp only [deleteBook, hb, howner, if_true]

theorem update_delete_by_non_owner_fail_witness :
    updateBook exampleStore 0 otherUser { title := some "Stolen", status := some "available" }
        (some { buffer := [255, 216, 255], mimetype := "image/jpeg" }) =
      (exampleStore, .response 403 (.message "Not authorized")) ∧
    deleteBook exampleStore 0 otherUser =
      (exampleStore, .response 403 (.message "Not authorized")) :=
  update_delete_by_non_owner_fail exampleStore 0 otherUser
    { title := some "Stolen", status := some "available" }
    (some { buffer := [255, 216, 255], mimetype := "image/jpeg" })
    { _id := 0, owner := 1, title := "SICP", author := "Abelson",
      category := "Programming", status := "requested" } (by decide) (by decide)

/-- C7 (evaluation at the failing input): in `exampleStore` user 1 owns
request 1, yet `reject` does not set its status to "rejected": the owner test
raises a TypeError, no response is written and the request stays "pending".
The book collection is unchanged. -/
theorem reject_by_owner_throws :
    reject exampleStore 1 ownerUser = (exampleStore, .threw "TypeError") ∧
    ((reject exampleStore 1 ownerUser).1.requests.map fun r => r.status) = ["pending"] ∧
    (reject exampleStore 1 ownerUser).1.books = exampleStore.books := by
  decide

/-- C9: for every store, caller, body and optional file, if the title, the
author or the category is missing or empty, or the category is not a member
of the route's `CATEGORY_OPTIONS`, the add-book route answers 400 with a
message and returns the store as it was. -/
theorem addBook_invalid_fails (s : Store) (user : ReqUser) (body : BookBody)
    (file : Option File)
    (h : missingOrEmpty body.title ∨ missingOrEmpty body.author ∨ missingOrEmpty body.category ∨
      ∀ c ∈ CATEGORY_OPTIONS, body.category ≠ some c) :
    ∃ msg, addBook s user body file = (s, .response 400 (.message msg)) := by
  have hfalsy : ∀ x : Option String, missingOrEmpty x → truthy x = false := by
    intro x hx
    rcases hx with hx | hx <;> simp [hx, truthy]
  unfold addBook
  by_cases hreq : (!truthy body.title || !truthy body.author || !truthy body.category) = true
  · exact ⟨"Title, author and category are required", by simp only [hreq, if_true]⟩
  · refine ⟨"Invalid category", ?_⟩
    have hcat : includesOpt CATEGORY_OPTIONS body.category = false := by
      rcases h with h | h | h | h
      · simp [hfalsy _ h] at hreq
      · simp [hfalsy _ h] at hreq
      · simp [hfalsy _ h] at hreq
      · cases hc : body.category with
        | none => rfl
        | some c =>
          simp only [includesOpt]
          by_contra hmem
          have hmem' : c ∈ CATEGORY_OPTIONS := by
            simpa using hmem
          exact h c hmem' hc
    simp only [hreq, hcat, Bool.not_false, if_true, Bool.false_eq_true, if_false]

theorem addBook_invalid_fails_witness :
    ∃ msg, addBook exampleStore ownerUser
        { title := some "TAOCP", author := some "Knuth", category := some "Cooking" } none =
      (exampleStore, .response 400 (.message msg)) :=
  addBook_invalid_fails exampleStore ownerUser
    { title := some "TAOCP", author := some "Knuth", category := some "Cooking" } none
    (Or.inr (Or.inr (Or.inr (by decide))))

/-- C10 (evaluation at the failing input): "Other" is a member of the list the
route checks against, the title and the author are non-empty, yet the
add-book route answers 500 "Server error" and stores nothing: the category
enum of the schema does not contain "Other", so `Book.create` rejects. -/
theorem addBook_other_category_fails :
    "Other" ∈ CATEGORY_OPTIONS ∧
    addBook {} ownerUser
        { title := some "Notes", author := some "Someone", category := some "Other" } none =
      ({}, .response 500 (.message "Server error")) := by
  decide

/-! ## The request invariant -/

theorem Inv.empty : Inv {} :=
  ⟨by simp, by simp, by simp, by simp, by simp⟩

/-- Replacing the book collection by one whose documents each agree, in id and
owner, with a document stored before keeps the invariant. -/
theorem Inv.of_books_sim {s : Store} (h : Inv s) (books' : List Book)
    (hsim : ∀ b ∈ books', ∃ x ∈ s.books, b._id = x._id ∧ b.owner = x.owner) :
    Inv { s with books := books' } := by
  refine ⟨h.distinct, ?_, ?_, h.refFresh, ?_⟩
  · intro r hr b hb hid
    obtain ⟨x, hx, hxid, hxo⟩ := hsim b hb
    rw [hxo]
    exact h.owner r hr x hx (hxid ▸ hid)
  · intro b hb
    obtain ⟨x, hx, hxid, _⟩ := hsim b hb
    rw [hxid]
    exact h.bookFresh x hx
  · intro b hb b' hb' hid
    obtain ⟨x, hx, hxid, hxo⟩ := hsim b hb
    obtain ⟨x', hx', hxid', hxo'⟩ := hsim b' hb'
    rw [hxo, hxo']
    exact h.unique x hx x' hx' (by rw [← hxid, ← hxid', hid])

/-- Inserting a book under the fresh id keeps the invariant. -/
theorem Inv.insertBook {s : Store} (h : Inv s) (book : Book) (hid : book._id = s.nextId) :
    Inv { s with books := s.books ++ [book], nextId := s.nextId + 1 } := by
  refine ⟨h.distinct, ?_, ?_, ?_, ?_⟩
  · intro r hr b hb hbr
    simp only [List.mem_append, List.mem_singleton] at hb
    rcases hb with hb | hb
    · exact h.owner r hr b hb hbr
    · have hlt := h.refFresh r hr
      subst hb
      rw [← hbr, hid] at hlt
      exact absurd hlt (Nat.lt_irrefl _)
  · intro b hb
    simp only [List.mem_append, List.mem_singleton] at hb
    show b._id < s.nextId + 1
    rcases hb with hb | hb
    · exact Nat.lt_succ_of_lt (h.bookFresh b hb)
    · subst hb
      rw [hid]
      exact Nat.lt_succ_self _
  · intro r hr
    show r.book < s.nextId + 1
    exact Nat.lt_succ_of_lt (h.refFresh r hr)
  · intro b hb b' hb' hbb
    simp only [List.mem_append, List.mem_singleton] at hb hb'
    rcases hb with hb | hb <;> rcases hb' with hb' | hb'
    · exact h.unique b hb b' hb' hbb
    · have hlt := h.bookFresh b hb
      subst hb'
      rw [hbb, hid] at hlt
      exact absurd hlt (Nat.lt_irrefl _)
    · have hlt := h.bookFresh b' hb'
      subst hb
      rw [← hbb, hid] at hlt
      exact absurd hlt (Nat.lt_irrefl _)
    · rw [hb, hb']

/-- Inserting a request on a stored book, owned by the book's owner and sent by
someone else, keeps the invariant. -/
theorem Inv.insertRequest {s : Store} (h : Inv s) (b : Book) (r : Request)
    (hb : b ∈ s.books) (hbook : r.book = b._id) (howner : r.owner = b.owner)
    (hreq : r.requester ≠ b.owner) :
    Inv { s with requests := s.requests ++ [r], nextId := s.nextId + 1 } := by
  refine ⟨?_, ?_, ?_, ?_, h.unique⟩
  · intro r' hr'
    simp only [List.mem_append, List.mem_singleton] at hr'
    rcases hr' with hr' | hr'
    · exact h.distinct r' hr'
    · subst hr'
      rw [howner]
      exact hreq
  · intro r' hr' b' hb' hid
    simp only [List.mem_append, List.mem_singleton] at hr'
    rcases hr' with hr' | hr'
    · exact h.owner r' hr' b' hb' hid
    · subst hr'
      rw [howner]
      exact h.unique b' hb' b hb (by rw [hid, hbook])
  · intro b' hb'
    show b'._id < s.nextId + 1
    exact Nat.lt_succ_of_lt (h.bookFresh b' hb')
  · intro r' hr'
    simp only [List.mem_append, List.mem_singleton] at hr'
    show r'.book < s.nextId + 1
    rcases hr' with hr' | hr'
    · exact Nat.lt_succ_of_lt (h.refFresh r' hr')
    · subst hr'
      rw [hbook]
      exact Nat.lt_succ_of_lt (h.bookFresh b hb)

/-- Writing a document back keeps the invariant when it agrees in id and owner
with a stored document. -/
theorem Inv.save {s s' : Store} (h : Inv s) (b0 b1 : Book) (hmem : b0 ∈ s.books)
    (hid : b1._id = b0._id) (hown : b1.owner = b0.owner) (hs : Book.save s b1 = some s') :
    Inv s' := by
  unfold Book.save at hs
  split at hs
  · simp only [Option.some.injEq] at hs
    subst hs
    apply h.of_books_sim
    intro b hb
    simp only [List.mem_map] at hb
    obtain ⟨x, hx, hxb⟩ := hb
    by_cases hc : (x._id == b1._id) = true
    · rw [if_pos hc] at hxb
      subst hxb
      exact ⟨b0, hmem, hid, hown⟩
    · rw [if_neg hc] at hxb
      subst hxb
      exact ⟨x, hx, rfl, rfl⟩
  · simp at hs

theorem applyPatch_id_owner {book book' : Book} {body : BookBody} {file : Option File}
    (h : applyPatch book body file = some book') :
    book'._id = book._id ∧ book'.owner = book.owner := by
  unfold applyPatch at h
  simp only at h
  split at h
  · simp only [Option.some.injEq] at h
    subst h
    exact ⟨rfl, rfl⟩
  · simp at h

theorem Book.create_some {s s' : Store} {data : BookData} {book : Book}
    (h : Book.create s data = some (s', book)) :
    s' = { s with books := s.books ++ [book], nextId := s.nextId + 1 } ∧ book._id = s.nextId ∧
      book.validate = true := by
  unfold Book.create at h
  split at h
  · simp at h
  · simp at h
  · simp only at h
    split at h
    · rename_i hv
      simp only [Option.some.injEq, Prod.mk.injEq] at h
      obtain ⟨h1, h2⟩ := h
      subst h2
      exact ⟨h1.symm, rfl, hv⟩
    · simp at h

theorem addBook_inv {s : Store} (h : Inv s) (user : ReqUser) (body : BookBody)
    (file : Option File) : Inv (addBook s user body file).1 := by
  unfold addBook
  simp only
  split
  · exact h
  · split
    · exact h
    · split
      · rename_i s' book hc
        obtain ⟨hs, hid, _⟩ := Book.create_some hc
        subst hs
        exact h.insertBook book hid
      · exact h

theorem updateBook_inv {s : Store} (h : Inv s) (id : ObjectId) (user : ReqUser)
    (body : BookBody) (file : Option File) : Inv (updateBook s id user body file).1 := by
  unfold updateBook
  split
  · exact h
  · rename_i book hfind
    split
    · exact h
    · split
      · rename_i s' book' hsave
        cases hp : applyPatch book body file with
        | none => simp [hp] at hsave
        | some patched =>
          simp only [hp, Option.some_bind, Option.map_eq_some'] at hsave
          obtain ⟨s1, hs1, heq⟩ := hsave
          simp only [Prod.mk.injEq] at heq
          obtain ⟨h1, _⟩ := heq
          subst h1
          obtain ⟨hid, hown⟩ := applyPatch_id_owner hp
          exact h.save book patched (Book.findById_mem hfind) hid hown hs1
      · exact h

theorem deleteBook_inv {s : Store} (h : Inv s) (id : ObjectId) (user : ReqUser) :
    Inv (deleteBook s id user).1 := by
  unfold deleteBook
  split
  · exact h
  · split
    · exact h
    · apply h.of_books_sim
      intro b hb
      exact ⟨b, (List.mem_filter.mp hb).1, rfl, rfl⟩

theorem createRequest_inv {s : Store} (h : Inv s) (id : ObjectId) (user : ReqUser)
    (body : RequestBody) : Inv (createRequest s id user body).1 := by
  unfold createRequest
  split
  · exact h
  · split
    · exact h
    · rename_i book hfind
      split
      · exact h
      · rename_i howner
        have hne : user.id ≠ book.owner := by
          intro heq
          exact howner (by simp [heq])
        split
        · exact h
        · rename_i s1 request hcreate
          unfold Request.create at hcreate
          simp only at hcreate
          split at hcreate
          · simp only [Option.some.injEq, Prod.mk.injEq] at hcreate
            obtain ⟨hs1, hreq⟩ := hcreate
            have h1 : Inv s1 := by
              rw [← hs1]
              refine h.insertRequest book _ (Book.findById_mem hfind) ?_ ?_ ?_
              · rfl
              · rfl
              · exact hne
            have hmem : book ∈ s1.books := by
              rw [← hs1]
              exact Book.findById_mem hfind
            simp only
            split
            · exact h1
            · rename_i s2 hsave
              exact h1.save book { book with status := "requested" } hmem rfl rfl hsave
          · simp at hcreate

/-- Every API call keeps the invariant. -/
theorem Call.run_inv {s : Store} (h : Inv s) (c : Call) : Inv (c.run s).1 := by
  cases c with
  | addBook user body file => exact addBook_inv h user body file
  | updateBook id user body file => exact updateBook_inv h id user body file
  | deleteBook id user => exact deleteBook_inv h id user
  | createRequest id user body => exact createRequest_inv h id user body
  | accept id user =>
    show Inv (BookSwap.accept s id user).1
    rw [accept_store]; exact h
  | reject id user =>
    show Inv (BookSwap.reject s id user).1
    rw [reject_store]; exact h

theorem runCalls_inv {s : Store} (h : Inv s) (calls : List Call) : Inv (runCalls s calls) := by
  induction calls generalizing s with
  | nil => exact h
  | cons c cs ih => exact ih (Call.run_inv h c)

/-- C8: in every store reached from the empty store by a sequence of API calls
(addBook, updateBook, deleteBook, createRequest, accept, reject, with any
callers and inputs), every stored request has a requester different from its
owner, and every stored book whose id is the one the request references has
the request's owner as its owner. -/
theorem reachable_request_owner (calls : List Call) (r : Request)
    (hr : r ∈ (runCalls {} calls).requests) :
    r.requester ≠ r.owner ∧
      ∀ b ∈ (runCalls {} calls).books, b._id = r.book → b.owner = r.owner :=
  have h := runCalls_inv Inv.empty calls
  ⟨h.distinct r hr, h.owner r hr⟩

theorem reachable_request_owner_witness :
    ({ _id := 1, book := 0, requester := 2, owner := 1, type := "buy",
       message := some "for my course", status := "pending" } : Request) ∈
        (runCalls {} exampleCalls).requests ∧
      (2 : ObjectId) ≠ 1 ∧
      ∀ b ∈ (runCalls {} exampleCalls).books, b._id = 0 → b.owner = 1 :=
  ⟨by decide,
   reachable_request_owner exampleCalls
     { _id := 1, book := 0, requester := 2, owner := 1, type := "buy",
       message := some "for my course", status := "pending" } (by decide)⟩

/-! ## Stored books satisfy the schema -/

/-- With a non-empty title and author, a category of the schema's enum, and a
rate and a year of publication that are each falsy or numeric, the add-book
route answers 201 with the created record, which is appended to the book
collection under the fresh id with the caller as owner and the submitted
title, author and category. -/
theorem addBook_schema_category_succeeds (s : Store) (user : ReqUser) (body : BookBody)
    (file : Option File) (title author category : String)
    (htitle : body.title = some title) (hauthor : body.author = some author)
    (hcategory : body.category = some category)
    (ht : title ≠ "") (ha : author ≠ "") (hc : category ∈ Book.CATEGORY_OPTIONS)
    (hrate : JsVal.truthy body.rate = false ∨ ∃ n, body.rate.bind Number = some n)
    (hyear : JsVal.truthy body.yearOfPublication = false ∨
      ∃ n, body.yearOfPublication.map Number = some (some n)) :
    ∃ book,
      addBook s user body file =
        ({ s with books := s.books ++ [book], nextId := s.nextId + 1 },
          .response 201 (.messageBook "Book added successfully" book)) ∧
      book._id = s.nextId ∧ book.owner = user.id ∧ book.title = title ∧
      book.author = author ∧ book.category = category := by
  have hcat : category ∈ CATEGORY_OPTIONS := by
    simp only [Book.CATEGORY_OPTIONS, List.mem_cons, List.mem_singleton, List.not_mem_nil,
      or_false] at hc
    simp only [CATEGORY_OPTIONS, List.mem_cons, List.mem_singleton, List.not_mem_nil, or_false]
    tauto
  have hcne : category ≠ "" := by
    intro h
    rw [h] at hc
    revert hc
    decide
  have hst : Book.STATUS_ENUM.contains
      (if includesOpt ALLOWED_STATUSES body.status = true then body.status.getD ""
        else "available") = true := by
    cases hs : body.status with
    | none => decide
    | some st =>
      by_cases hin : ALLOWED_STATUSES.contains st = true
      · simp only [includesOpt, hin, if_true, Option.getD_some]
        exact hin
      · simp only [includesOpt, hin, Bool.false_eq_true, if_false]
        decide
  obtain ⟨rate, hr⟩ : ∃ rate,
      (if JsVal.truthy body.rate = true then body.rate.bind Number else some 0) = some rate := by
    rcases hrate with h | ⟨n, h⟩
    · exact ⟨0, by simp [h]⟩
    · by_cases htr : JsVal.truthy body.rate = true
      · exact ⟨n, by simp [htr, h]⟩
      · exact ⟨0, by simp [htr]⟩
  obtain ⟨year, hy⟩ : ∃ year : Option Int,
      (if JsVal.truthy body.yearOfPublication = true then body.yearOfPublication.map Number
        else none) = year.map some := by
    rcases hyear with h | ⟨n, h⟩
    · exact ⟨none, by simp [h]⟩
    · by_cases htr : JsVal.truthy body.yearOfPublication = true
      · exact ⟨some n, by simp [htr, h]⟩
      · exact ⟨none, by simp [htr]⟩
  have hreq : (!truthy body.title || !truthy body.author || !truthy body.category) = false := by
    simp [htitle, hauthor, hcategory, truthy, ht, ha, hcne]
  have hinc : includesOpt CATEGORY_OPTIONS body.category = true := by
    simp only [hcategory, includesOpt]
    simpa using hcat
  have hval : ∀ (b : Book), b.title = title → b.author = author → b.category = category →
      Book.STATUS_ENUM.contains b.status = true → b.validate = true := by
    intro b h1 h2 h3 h4
    have hc' : Book.CATEGORY_OPTIONS.contains category = true := by simpa using hc
    unfold Book.validate
    rw [h1, h2, h3]
    simp only [Bool.and_eq_true, bne_iff_ne, ne_eq]
    exact ⟨⟨⟨⟨ht, ha⟩, hcne⟩, hc'⟩, h4⟩
  refine ⟨{ _id := s.nextId, owner := user.id, title := title, author := author,
            category := category, description := body.description, edition := body.edition,
            isbn := body.isbn, condition := body.condition, yearOfPublication := year,
            department := body.department,
            image := file.map fun f => { data := f.buffer, contentType := f.mimetype },
            imageUrl := none, rate := rate,
            status := if includesOpt ALLOWED_STATUSES body.status = true
              then body.status.getD "" else "available" }, ?_, rfl, rfl, rfl, rfl, rfl⟩
  unfold addBook
  simp only [hreq, hinc, Bool.not_true, Bool.false_eq_true, if_false, hr, hy]
  simp only [Book.create, htitle, hauthor, hcategory, Option.getD_some]
  cases year with
  | none =>
    simp only [Option.map_none', Option.join]
    rw [if_pos (hval _ rfl rfl rfl hst)]
    rfl
  | some y =>
    simp only [Option.map_some', Option.join]
    rw [if_pos (hval _ rfl rfl rfl hst)]
    rfl

/-! ## Facts about the auth routes -/

theorem User.findOneByEmail_none {us : UserStore} {email : String}
    (h : User.findOneByEmail us (some email) = none) : ∀ u ∈ us.users, u.email ≠ email := by
  intro u hu heq
  have := List.find?_eq_none.mp h u hu
  simp [heq] at this

theorem User.findOneByRegisterNumber_none {us : UserStore} {registerNumber : String}
    (h : User.findOneByRegisterNumber us (some registerNumber) = none) :
    ∀ u ∈ us.users, u.registerNumber ≠ registerNumber := by
  intro u hu heq
  have := List.find?_eq_none.mp h u hu
  simp [heq] at this

theorem User.created {us us' : UserStore} {name department registerNumber : String}
    {yearOfStudy : Option Int} {email passwordHash : String} {user : User}
    (h : User.create us name department registerNumber yearOfStudy email passwordHash =
      some (us', user)) :
    us' = { us with users := us.users ++ [user], nextId := us.nextId + 1 } ∧
      user._id = us.nextId ∧ user.name = name ∧ user.email = email ∧
      user.registerNumber = registerNumber ∧ user.passwordHash = passwordHash := by
  unfold User.create at h
  split at h
  · simp at h
  · simp only at h
    split at h
    · simp only [Option.some.injEq, Prod.mk.injEq] at h
      obtain ⟨h1, h2⟩ := h
      subst h2
      exact ⟨h1.symm, rfl, rfl, rfl, rfl, rfl⟩
    · simp at h

/-- What the register route can do: leave the store as it is, or append one
user whose email and register number no stored user has. -/
theorem register_cases (bcrypt : Bcrypt) (jwt : Jwt) (us : UserStore) (body : RegisterBody)
    (salt : String) :
    (register bcrypt jwt us body salt).1 = us ∨
    ∃ user, (register bcrypt jwt us body salt).1 =
        { us with users := us.users ++ [user], nextId := us.nextId + 1 } ∧
      (∀ u ∈ us.users, u.email ≠ user.email) ∧
      (∀ u ∈ us.users, u.registerNumber ≠ user.registerNumber) := by
  unfold register
  split
  · exact Or.inl rfl
  · rename_i hfields
    split
    · exact Or.inl rfl
    · rename_i hemail
      split
      · exact Or.inl rfl
      · rename_i hreg
        simp only
        split
        · exact Or.inl rfl
        · rename_i us' user hcreate
          obtain ⟨hs, _, _, he, hr, _⟩ := User.created hcreate
          refine Or.inr ⟨user, hs, ?_, ?_⟩
          · cases hbe : body.email with
            | none => simp [hbe, truthy] at hfields
            | some e =>
              rw [hbe] at hemail he
              have hnone : User.findOneByEmail us (some e) = none := by
                simpa using hemail
              simpa [he] using User.findOneByEmail_none hnone
          · cases hbr : body.registerNumber with
            | none => simp [hbr, truthy] at hfields
            | some r =>
              rw [hbr] at hreg hr
              have hnone : User.findOneByRegisterNumber us (some r) = none := by
                simpa using hreg
              simpa [hr] using User.findOneByRegisterNumber_none hnone

theorem register_nodup (bcrypt : Bcrypt) (jwt : Jwt) (us : UserStore) (body : RegisterBody)
    (salt : String)
    (h : (us.users.map fun u => u.email).Nodup ∧ (us.users.map fun u => u.registerNumber).Nodup) :
    ((register bcrypt jwt us body salt).1.users.map fun u => u.email).Nodup ∧
      ((register bcrypt jwt us body salt).1.users.map fun u => u.registerNumber).Nodup := by
  rcases register_cases bcrypt jwt us body salt with heq | ⟨user, heq, he, hr⟩
  · rw [heq]; exact h
  · rw [heq]
    simp only [List.map_append, List.map_cons, List.map_nil]
    constructor
    · refine List.Nodup.append h.1 (List.nodup_singleton _) ?_
      intro x hx hx'
      simp only [List.mem_map] at hx
      simp only [List.mem_singleton] at hx'
      obtain ⟨u, hu, hux⟩ := hx
      exact he u hu (hux.trans hx')
    · refine List.Nodup.append h.2 (List.nodup_singleton _) ?_
      intro x hx hx'
      simp only [List.mem_map] at hx
      simp only [List.mem_singleton] at hx'
      obtain ⟨u, hu, hux⟩ := hx
      exact hr u hu (hux.trans hx')

theorem register_duplicate_fails (bcrypt : Bcrypt) (jwt : Jwt) (us : UserStore)
    (body : RegisterBody) (salt : String)
    (hdup : ∃ u ∈ us.users,
      body.email = some u.email ∨ body.registerNumber = some u.registerNumber) :
    ∃ msg, register bcrypt jwt us body salt = (us, .response 400 (.message msg)) := by
  obtain ⟨u, hu, hdup⟩ := hdup
  unfold register
  split
  · exact ⟨_, rfl⟩
  · split
    · exact ⟨_, rfl⟩
    · rename_i hemail
      split
      · exact ⟨_, rfl⟩
      · rename_i hreg
        exfalso
        rcases hdup with h | h
        · apply hemail
          rw [h, Option.isSome_iff_exists]
          cases hf : User.findOneByEmail us (some u.email) with
          | some v => exact ⟨v, rfl⟩
          | none => exact absurd rfl (User.findOneByEmail_none hf u hu)
        · apply hreg
          rw [h, Option.isSome_iff_exists]
          cases hf : User.findOneByRegisterNumber us (some u.registerNumber) with
          | some v => exact ⟨v, rfl⟩
          | none => exact absurd rfl (User.findOneByRegisterNumber_none hf u hu)

/-- C11: in every user store reached from the empty one by register calls, the
emails of the stored users are pairwise distinct and so are their register
numbers; and in every user store, a register call whose email or register
number is that of a stored user is answered 400 and returns the store as it
was. -/
theorem register_unique (bcrypt : Bcrypt) (jwt : Jwt) (calls : List (RegisterBody × String)) :
    ((runRegister bcrypt jwt calls).users.map fun u => u.email).Nodup ∧
    ((runRegister bcrypt jwt calls).users.map fun u => u.registerNumber).Nodup ∧
    ∀ (us : UserStore) (body : RegisterBody) (salt : String),
      (∃ u ∈ us.users,
        body.email = some u.email ∨ body.registerNumber = some u.registerNumber) →
      ∃ msg, register bcrypt jwt us body salt = (us, .response 400 (.message msg)) := by
  have key : ∀ (us : UserStore),
      ((us.users.map fun u => u.email).Nodup ∧
        (us.users.map fun u => u.registerNumber).Nodup) →
      (((calls.foldl (fun us c => (register bcrypt jwt us c.1 c.2).1) us).users.map
          fun u => u.email).Nodup ∧
        ((calls.foldl (fun us c => (register bcrypt jwt us c.1 c.2).1) us).users.map
          fun u => u.registerNumber).Nodup) := by
    induction calls with
    | nil => intro us h; exact h
    | cons c cs ih => intro us h; exact ih _ (register_nodup bcrypt jwt us c.1 c.2 h)
  have hrun := key {} ⟨List.nodup_nil, List.nodup_nil⟩
  exact ⟨hrun.1, hrun.2, fun us body salt h => register_duplicate_fails bcrypt jwt us body salt h⟩

theorem register_unique_witness :
    ((runRegister exampleBcrypt exampleJwt
        [(exampleRegistration, "s1"), (exampleRegistration, "s2")]).users.map
      fun u => u.email) = ["chitra@example.com"] ∧
    ∃ msg, register exampleBcrypt exampleJwt exampleUsers
        { exampleRegistration with email := some "owner@example.com" } "s3" =
      (exampleUsers, .response 400 (.message msg)) :=
  ⟨by decide,
   (register_unique exampleBcrypt exampleJwt []).2.2 exampleUsers
     { exampleRegistration with email := some "owner@example.com" } "s3"
     ⟨{ _id := 1, name := "Asha", department := "CSE", registerNumber := "R001",
        yearOfStudy := 3, email := "owner@example.com", passwordHash := "salt1$secret1" },
      by decide, Or.inl (by decide)⟩⟩

/-- C12: for every user store, the login response for an email that matches
no user (whatever password is sent, if any) and the login response for the
email of a stored user with a password that `bcrypt.compare` rejects are the
same response, status 400 with the body `{ message: "Invalid credentials" }`,
which carries no token. -/
theorem login_failure_constant (bcrypt : Bcrypt) (jwt : Jwt) (us : UserStore)
    (unknownEmail : String) (anyPassword : Option String)
    (email password : String) (u : User)
    (hunknown : User.findOneByEmail us (some unknownEmail) = none)
    (hknown : User.findOneByEmail us (some email) = some u)
    (hmismatch : bcrypt.compare password u.passwordHash = false) :
    login bcrypt jwt us { email := some unknownEmail, password := anyPassword } =
      login bcrypt jwt us { email := some email, password := some password } ∧
    login bcrypt jwt us { email := some email, password := some password } =
      .response 400 (.message "Invalid credentials") := by
  have h1 : login bcrypt jwt us { email := some unknownEmail, password := anyPassword } =
      .response 400 (.message "Invalid credentials") := by
    simp only [login, hunknown]
  have h2 : login bcrypt jwt us { email := some email, password := some password } =
      .response 400 (.message "Invalid credentials") := by
    simp only [login, hknown, hmismatch, Bool.not_false, if_true]
  exact ⟨h1.trans h2.symm, h2⟩

theorem login_failure_constant_witness :
    login exampleBcrypt exampleJwt exampleUsers
        { email := some "nobody@example.com", password := some "secret1" } =
      login exampleBcrypt exampleJwt exampleUsers
        { email := some "owner@example.com", password := some "wrong" } ∧
    login exampleBcrypt exampleJwt exampleUsers
        { email := some "owner@example.com", password := some "wrong" } =
      .response 400 (.message "Invalid credentials") :=
  login_failure_constant exampleBcrypt exampleJwt exampleUsers "nobody@example.com"
    (some "secret1") "owner@example.com" "wrong"
    { _id := 1, name := "Asha", department := "CSE", registerNumber := "R001",
      yearOfStudy := 3, email := "owner@example.com", passwordHash := "salt1$secret1" }
    (by decide) (by decide) (by decide)

/-- C13: the middleware answers 401 when there is no Authorization header, when
the header is the scheme word alone ("Bearer") or the scheme word followed by
nothing ("Bearer "), and whenever the second piece of the header is missing or
empty; it answers 403 when that piece is a non-empty token that `jwt.verify`
rejects; otherwise it calls `next` with `req.user` set to the decoded payload.
A call ends in exactly one of a response and `next`, so in the 401 and 403
cases `next` is not called. -/
theorem authMiddleware_cases (jwt : Jwt) :
    authMiddleware jwt none = .response 401 (.message "No token provided") ∧
    authMiddleware jwt (some "Bearer") = .response 401 (.message "No token provided") ∧
    authMiddleware jwt (some "Bearer ") = .response 401 (.message "No token provided") ∧
    (∀ header, bearerToken header = none ∨ bearerToken header = some "" →
      authMiddleware jwt header = .response 401 (.message "No token provided")) ∧
    (∀ header token, bearerToken header = some token → token ≠ "" →
      jwt.verify token = none →
      authMiddleware jwt header = .response 403 (.message "Invalid token")) ∧
    (∀ header token decoded, bearerToken header = some token → token ≠ "" →
      jwt.verify token = some decoded →
      authMiddleware jwt header = .next decoded) := by
  have h401 : ∀ header, bearerToken header = none ∨ bearerToken header = some "" →
      authMiddleware jwt header = .response 401 (.message "No token provided") := by
    intro header h
    rcases h with h | h <;> simp [authMiddleware, h, truthy]
  refine ⟨h401 _ (Or.inl (by decide)), h401 _ (Or.inl (by decide)),
    h401 _ (Or.inr (by decide)), h401, ?_, ?_⟩
  · intro header token ht hne hv
    simp [authMiddleware, ht, truthy, hne, hv]
  · intro header token decoded ht hne hv
    simp [authMiddleware, ht, truthy, hne, hv]

theorem authMiddleware_cases_witness :
    authMiddleware exampleJwt (some "Bearer forged") =
      .response 403 (.message "Invalid token") ∧
    authMiddleware exampleJwt (some "Bearer jwt.other@example.com") = .next otherUser :=
  ⟨(authMiddleware_cases exampleJwt).2.2.2.2.1 (some "Bearer forged") "forged"
      (by decide) (by decide) (by decide),
   (authMiddleware_cases exampleJwt).2.2.2.2.2 (some "Bearer jwt.other@example.com")
      "jwt.other@example.com" otherUser (by decide) (by decide) (by decide)⟩

theorem splitSpace_of_no_space (t : List Char) (h : ' ' ∉ t) : splitSpace t = [t] := by
  induction t with
  | nil => rfl
  | cons c cs ih =>
    have hc : (c == ' ') = false := by
      simp only [beq_eq_false_iff_ne, ne_eq]
      intro hc
      exact h (by simp [hc])
    have hcs : ' ' ∉ cs := fun hmem => h (List.mem_cons_of_mem _ hmem)
    simp only [splitSpace, hc, Bool.false_eq_true, if_false, ih hcs]

/-- The token the middleware extracts from the header "Bearer " followed by a
token without a space is that token. -/
theorem bearerToken_bearer (token : String) (h : ' ' ∉ token.toList) :
    bearerToken (some ("Bearer " ++ token)) = some token := by
  have hsplit : splitSpace ("Bearer " ++ token).toList = ["Bearer".toList, token.toList] := by
    have : ("Bearer " ++ token).toList =
        'B' :: 'e' :: 'a' :: 'r' :: 'e' :: 'r' :: ' ' :: token.toList := by
      simp [String.toList, String.data_append]
    rw [this]
    have h1 : splitSpace (' ' :: token.toList) = [[], token.toList] := by
      have h0 := splitSpace_of_no_space _ h
      simp only [splitSpace, beq_self_eq_true, if_true, h0]
    have step : ∀ (c : Char) (w : List Char) (ws : List (List Char)) (cs : List Char),
        (c == ' ') = false → splitSpace cs = w :: ws → splitSpace (c :: cs) = (c :: w) :: ws := by
      intro c w ws cs hc hcs
      simp only [splitSpace, hc, Bool.false_eq_true, if_false, hcs]
    exact step _ _ _ _ (by decide) (step _ _ _ _ (by decide) (step _ _ _ _ (by decide)
      (step _ _ _ _ (by decide) (step _ _ _ _ (by decide) (step _ _ _ _ (by decide) h1)))))
  simp only [bearerToken, Option.some_bind, hsplit]
  rfl

/-- C14: for every user store, every stored user u found under its email whose
stored hash is the bcrypt hash (under some salt) of the given password, login
with that email and password answers 200 with a token t and u's summary, and
the middleware, given the header "Bearer t", calls `next` with `req.user` set
to `{ id: u._id, email: u.email }`.  The libraries are taken as abstract
functions of which is assumed, at this user: `compare` accepts the password
against its own hash, `verify` returns the payload `sign` was given, and a
signed token is non-empty and has no space in it. -/
theorem login_token_accepted (bcrypt : Bcrypt) (jwt : Jwt) (us : UserStore)
    (email password salt : String) (u : User)
    (hfind : User.findOneByEmail us (some email) = some u)
    (hhash : u.passwordHash = bcrypt.hash password salt)
    (hcompare : bcrypt.compare password (bcrypt.hash password salt) = true)
    (hverify : jwt.verify (jwt.sign { id := u._id, email := u.email }) =
      some { id := u._id, email := u.email })
    (hnonempty : jwt.sign { id := u._id, email := u.email } ≠ "")
    (hnospace : ' ' ∉ (jwt.sign { id := u._id, email := u.email }).toList) :
    ∃ token,
      login bcrypt jwt us { email := some email, password := some password } =
        .response 200 (.tokenUser token { id := u._id, name := u.name, email := u.email }) ∧
      authMiddleware jwt (some ("Bearer " ++ token)) =
        .next { id := u._id, email := u.email } := by
  refine ⟨jwt.sign { id := u._id, email := u.email }, ?_, ?_⟩
  · simp only [login, hfind, hhash, hcompare, Bool.not_true, Bool.false_eq_true, if_false]
  · simp [authMiddleware, bearerToken_bearer _ hnospace, truthy, hnonempty, hverify]

theorem login_token_accepted_witness :
    ∃ token,
      login exampleBcrypt exampleJwt exampleUsers
          { email := some "owner@example.com", password := some "secret1" } =
        .response 200
          (.tokenUser token { id := 1, name := "Asha", email := "owner@example.com" }) ∧
      authMiddleware exampleJwt (some ("Bearer " ++ token)) =
        .next { id := 1, email := "owner@example.com" } :=
  login_token_accepted exampleBcrypt exampleJwt exampleUsers "owner@example.com" "secret1"
    "salt1"
    { _id := 1, name := "Asha", department := "CSE", registerNumber := "R001",
      yearOfStudy := 3, email := "owner@example.com", passwordHash := "salt1$secret1" }
    (by decide) (by decide) (by decide) (by decide) (by decide) (by decide)

/-- C15: for every input and every user store, the response of register is
one of four fixed messages or, on success, exactly the token signed for
`{ id, email }` of the created user together with that user's summary
`{ id, name, email }`; the response of login is one of two fixed messages or
the same pair for the stored user; the response of me is the fixed 404
message or the fields of the stored user without the key "passwordHash",
every other key carrying the stored value. -/
theorem auth_responses_hide_hash (bcrypt : Bcrypt) (jwt : Jwt) (us : UserStore) :
    (∀ (body : RegisterBody) (salt : String),
      (register bcrypt jwt us body salt).2 =
          .response 400 (.message "All fields are required") ∨
      (register bcrypt jwt us body salt).2 = .response 400 (.message "Email exists") ∨
      (register bcrypt jwt us body salt).2 =
          .response 400 (.message "Register number exists") ∨
      (register bcrypt jwt us body salt).2 = .response 500 (.message "Server error") ∨
      ∃ user ∈ (register bcrypt jwt us body salt).1.users,
        (register bcrypt jwt us body salt).2 =
          .response 200 (.tokenUser (jwt.sign { id := user._id, email := user.email })
            { id := user._id, name := user.name, email := user.email })) ∧
    (∀ (body : LoginBody),
      login bcrypt jwt us body = .response 400 (.message "Invalid credentials") ∨
      login bcrypt jwt us body = .response 500 (.message "Server error") ∨
      ∃ user ∈ us.users,
        login bcrypt jwt us body =
          .response 200 (.tokenUser (jwt.sign { id := user._id, email := user.email })
            { id := user._id, name := user.name, email := user.email })) ∧
    (∀ (user : ReqUser),
      me us user = .response 404 (.message "User not found") ∨
      ∃ u fields, User.findById us user.id = some u ∧
        me us user = .response 200 (.document fields) ∧
        (∀ v, ("passwordHash", v) ∉ fields) ∧
        ∀ k v, k ≠ "passwordHash" → ((k, v) ∈ fields ↔ (k, v) ∈ u.toObject)) := by
  refine ⟨?_, ?_, ?_⟩
  · intro body salt
    unfold register
    split
    · exact Or.inl rfl
    · split
      · exact Or.inr (Or.inl rfl)
      · split
        · exact Or.inr (Or.inr (Or.inl rfl))
        · simp only
          split
          · exact Or.inr (Or.inr (Or.inr (Or.inl rfl)))
          · rename_i us' user hcreate
            obtain ⟨hs, _⟩ := User.created hcreate
            refine Or.inr (Or.inr (Or.inr (Or.inr ⟨user, ?_, rfl⟩)))
            rw [hs]
            simp
  · intro body
    unfold login
    split
    · exact Or.inl rfl
    · rename_i user hfind
      split
      · exact Or.inr (Or.inl rfl)
      · split
        · exact Or.inl rfl
        · exact Or.inr (Or.inr ⟨user, List.mem_of_find?_eq_some hfind, rfl⟩)
  · intro user
    unfold me
    cases hfind : User.findById us user.id with
    | none => exact Or.inl rfl
    | some u =>
      refine Or.inr ⟨u, selectWithout "passwordHash" u.toObject, rfl, rfl, ?_, ?_⟩
      · intro v hmem
        have := (List.mem_filter.mp hmem).2
        simp at this
      · intro k v hk
        constructor
        · intro hmem
          exact (List.mem_filter.mp hmem).1
        · intro hmem
          exact List.mem_filter.mpr ⟨hmem, by simpa using hk⟩

theorem auth_responses_hide_hash_witness :
    me exampleUsers ownerUser =
      .response 200 (.document
        [("_id", .ref 1), ("name", .text "Asha"), ("department", .text "CSE"),
         ("registerNumber", .text "R001"), ("yearOfStudy", .number 3),
         ("email", .text "owner@example.com"), ("role", .text "user")]) ∧
    (me exampleUsers ownerUser = .response 404 (.message "User not found") ∨
      ∃ u fields, User.findById exampleUsers ownerUser.id = some u ∧
        me exampleUsers ownerUser = .response 200 (.document fields) ∧
        (∀ v, ("passwordHash", v) ∉ fields) ∧
        ∀ k v, k ≠ "passwordHash" → ((k, v) ∈ fields ↔ (k, v) ∈ u.toObject)) :=
  ⟨by decide, (auth_responses_hide_hash exampleBcrypt exampleJwt exampleUsers).2.2 ownerUser⟩

/-! ## Facts about the list routes -/

theorem populateOwner_id {users : List User} {owner : ObjectId} {o : OwnerView}
    (h : populateOwner users owner = some o) : o._id = owner := by
  unfold populateOwner at h
  cases hf : users.find? (fun u => u._id == owner) with
  | none => simp [hf] at h
  | some u =>
    simp only [hf, Option.map_some', Option.some.injEq] at h
    have := List.find?_some hf
    rw [← h]
    simpa using this

/-- C16: for every store, every users collection and every caller, the
available-books route answers 200 with a list that holds, in collection order,
exactly the views of the stored books whose status is "available" and whose
owner is not the caller: a view is listed if and only if it is the view of
such a book; every listed view has status "available", its populated owner,
if any, is not the caller, and its image carries no data bytes. -/
theorem listAvailable_exact (s : Store) (users : List User) (user : ReqUser) :
    ∃ views,
      listAvailable s users user = .response 200 (.books true views) ∧
      views = (s.books.filter fun b => b.status == "available" && b.owner != user.id).map
        (Book.view users) ∧
      (∀ v, v ∈ views ↔
        ∃ b ∈ s.books, b.status = "available" ∧ b.owner ≠ user.id ∧ v = Book.view users b) ∧
      (∀ v ∈ views, v.status = "available") ∧
      (∀ v ∈ views, ∀ o, v.owner = some o → o._id ≠ user.id) ∧
      (∀ v ∈ views, ∀ img, v.image = some img → img.data = none) := by
  have hmem : ∀ v, v ∈ (s.books.filter fun b => b.status == "available" && b.owner != user.id).map
        (Book.view users) ↔
      ∃ b ∈ s.books, b.status = "available" ∧ b.owner ≠ user.id ∧ v = Book.view users b := by
    intro v
    simp only [List.mem_map, List.mem_filter, Bool.and_eq_true, beq_iff_eq, bne_iff_ne, ne_eq]
    constructor
    · rintro ⟨b, ⟨hb, hst, hown⟩, rfl⟩
      exact ⟨b, hb, hst, hown, rfl⟩
    · rintro ⟨b, hb, hst, hown, rfl⟩
      exact ⟨b, ⟨hb, hst, hown⟩, rfl⟩
  refine ⟨_, rfl, rfl, hmem, ?_, ?_, ?_⟩
  · intro v hv
    obtain ⟨b, _, hst, _, rfl⟩ := (hmem v).mp hv
    exact hst
  · intro v hv o ho
    obtain ⟨b, _, _, hown, rfl⟩ := (hmem v).mp hv
    rw [populateOwner_id ho]
    exact hown
  · intro v hv img himg
    obtain ⟨b, _, _, _, rfl⟩ := (hmem v).mp hv
    simp only [Book.view, Option.map_eq_some'] at himg
    obtain ⟨i, _, hi⟩ := himg
    rw [← hi]
    rfl

theorem listAvailable_exact_witness :
    listAvailable
        { books := [{ _id := 0, owner := 1, title := "SICP", author := "Abelson",
                      category := "Programming",
                      image := some { data := [255, 216, 255], contentType := "image/jpeg" } },
                    { _id := 1, owner := 2, title := "TAOCP", author := "Knuth",
                      category := "Programming" },
                    { _id := 2, owner := 1, title := "CLRS", author := "Cormen",
                      category := "Programming", status := "sold" }] }
        exampleUsers.users otherUser =
      .response 200 (.books true
        [{ _id := 0, owner := some { _id := 1, name := "Asha", department := "CSE",
                                     yearOfStudy := 3 },
           title := "SICP", author := "Abelson", category := "Programming",
           description := none, edition := none, isbn := none, condition := none,
           yearOfPublication := none, department := none,
           image := some { data := none, contentType := "image/jpeg" }, imageUrl := none,
           rate := 0, status := "available" }]) ∧
    ∃ views,
      listAvailable exampleStore exampleUsers.users otherUser =
        .response 200 (.books true views) ∧
      views = (exampleStore.books.filter
        fun b => b.status == "available" && b.owner != otherUser.id).map
        (Book.view exampleUsers.users) ∧
      (∀ v, v ∈ views ↔
        ∃ b ∈ exampleStore.books, b.status = "available" ∧ b.owner ≠ otherUser.id ∧
          v = Book.view exampleUsers.users b) ∧
      (∀ v ∈ views, v.status = "available") ∧
      (∀ v ∈ views, ∀ o, v.owner = some o → o._id ≠ otherUser.id) ∧
      (∀ v ∈ views, ∀ img, v.image = some img → img.data = none) :=
  ⟨by decide, listAvailable_exact exampleStore exampleUsers.users otherUser⟩

/-- C17 (evaluation at the failing input): in `twoRequestStore` user 2 is the
requester of request 1 and user 1 is the owner of requests 1 and 2, both
callers being identified by the decoded payload `{ id, email }`, yet both list
routes answer with the empty list: the queries filter on `req.user._id`, which
is undefined. -/
theorem list_requests_by_id_empty :
    (twoRequestStore.requests.filter fun r => r.requester == otherUser.id).map
        (fun r => r._id) = [1] ∧
    listSent twoRequestStore exampleUsers.users otherUser = .response 200 (.requests []) ∧
    (twoRequestStore.requests.filter fun r => r.owner == ownerUser.id).map
        (fun r => r._id) = [1, 2] ∧
    listReceived twoRequestStore exampleUsers.users ownerUser =
      .response 200 (.requests []) := by
  decide

/-! ## The effect of an update -/

theorem Book.save_books {s s' : Store} (b0 b1 : Book) (hmem : b0 ∈ s.books)
    (hid : b1._id = b0._id) (hown : b1.owner = b0.owner) (hs : Book.save s b1 = some s') :
    s'.nextId = s.nextId ∧
      ∀ x ∈ s'.books, ∃ y ∈ s.books, x._id = y._id ∧ x.owner = y.owner := by
  unfold Book.save at hs
  split at hs
  · simp only [Option.some.injEq] at hs
    subst hs
    refine ⟨rfl, ?_⟩
    intro x hx
    simp only [List.mem_map] at hx
    obtain ⟨y, hy, hyx⟩ := hx
    by_cases hc : (y._id == b1._id) = true
    · rw [if_pos hc] at hyx
      subst hyx
      exact ⟨b0, hmem, hid, hown⟩
    · rw [if_neg hc] at hyx
      subst hyx
      exact ⟨y, hy, rfl, rfl⟩
  · simp at hs

/-- Every API call leaves the fresh id where it was or moves it forward, and
every book stored after the call either agrees in id and owner with a book
stored before it or was inserted under the id that was fresh. -/
theorem Call.run_books (s : Store) (c : Call) :
    s.nextId ≤ (c.run s).1.nextId ∧
      ∀ x ∈ (c.run s).1.books,
        (∃ y ∈ s.books, x._id = y._id ∧ x.owner = y.owner) ∨ x._id = s.nextId := by
  have hsame : s.nextId ≤ s.nextId ∧ ∀ x ∈ s.books,
      (∃ y ∈ s.books, x._id = y._id ∧ x.owner = y.owner) ∨ x._id = s.nextId :=
    ⟨Nat.le_refl _, fun x hx => Or.inl ⟨x, hx, rfl, rfl⟩⟩
  cases c with
  | addBook user body file =>
    show s.nextId ≤ (BookSwap.addBook s user body file).1.nextId ∧
      ∀ x ∈ (BookSwap.addBook s user body file).1.books, _
    unfold BookSwap.addBook
    simp only
    split
    · exact hsame
    · split
      · exact hsame
      · split
        · rename_i s' book hc
          obtain ⟨hs, hid, _⟩ := Book.create_some hc
          subst hs
          refine ⟨Nat.le_succ _, ?_⟩
          intro x hx
          simp only [List.mem_append, List.mem_singleton] at hx
          rcases hx with hx | hx
          · exact Or.inl ⟨x, hx, rfl, rfl⟩
          · exact Or.inr (hx ▸ hid)
        · exact hsame
  | updateBook id user body file =>
    show s.nextId ≤ (BookSwap.updateBook s id user body file).1.nextId ∧
      ∀ x ∈ (BookSwap.updateBook s id user body file).1.books, _
    unfold BookSwap.updateBook
    split
    · exact hsame
    · rename_i book hfind
      split
      · exact hsame
      · split
        · rename_i s' book' hsave
          cases hp : applyPatch book body file with
          | none => simp [hp] at hsave
          | some patched =>
            simp only [hp, Option.some_bind, Option.map_eq_some'] at hsave
            obtain ⟨s1, hs1, heq⟩ := hsave
            simp only [Prod.mk.injEq] at heq
            obtain ⟨h1, _⟩ := heq
            subst h1
            obtain ⟨hid, hown⟩ := applyPatch_id_owner hp
            obtain ⟨hn, hb⟩ :=
              Book.save_books book patched (Book.findById_mem hfind) hid hown hs1
            exact ⟨Nat.le_of_eq hn.symm, fun x hx => Or.inl (hb x hx)⟩
        · exact hsame
  | deleteBook id user =>
    show s.nextId ≤ (BookSwap.deleteBook s id user).1.nextId ∧
      ∀ x ∈ (BookSwap.deleteBook s id user).1.books, _
    unfold BookSwap.deleteBook
    split
    · exact hsame
    · split
      · exact hsame
      · exact ⟨Nat.le_refl _, fun x hx => Or.inl ⟨x, (List.mem_filter.mp hx).1, rfl, rfl⟩⟩
  | createRequest id user body =>
    show s.nextId ≤ (BookSwap.createRequest s id user body).1.nextId ∧
      ∀ x ∈ (BookSwap.createRequest s id user body).1.books, _
    unfold BookSwap.createRequest
    split
    · exact hsame
    · split
      · exact hsame
      · rename_i book hfind
        split
        · exact hsame
        · split
          · exact hsame
          · rename_i s1 request hcreate
            unfold Request.create at hcreate
            simp only at hcreate
            split at hcreate
            · simp only [Option.some.injEq, Prod.mk.injEq] at hcreate
              obtain ⟨hs1, _⟩ := hcreate
              have hmem : book ∈ s1.books := by
                rw [← hs1]
                exact Book.findById_mem hfind
              have hb1 : s1.books = s.books := by rw [← hs1]
              have hn1 : s1.nextId = s.nextId + 1 := by rw [← hs1]
              simp only
              split
              · refine ⟨?_, ?_⟩
                · rw [hn1]; exact Nat.le_succ _
                · intro x hx
                  rw [hb1] at hx
                  exact Or.inl ⟨x, hx, rfl, rfl⟩
              · rename_i s2 hsave
                obtain ⟨hn, hb⟩ :=
                  Book.save_books book { book with status := "requested" } hmem rfl rfl hsave
                refine ⟨?_, ?_⟩
                · rw [hn, hn1]; exact Nat.le_succ _
                · intro x hx
                  obtain ⟨y, hy, hxy⟩ := hb x hx
                  rw [hb1] at hy
                  exact Or.inl ⟨y, hy, hxy⟩
            · simp at hcreate
  | accept id user =>
    show s.nextId ≤ (BookSwap.accept s id user).1.nextId ∧
      ∀ x ∈ (BookSwap.accept s id user).1.books, _
    rw [accept_store]; exact hsame
  | reject id user =>
    show s.nextId ≤ (BookSwap.reject s id user).1.nextId ∧
      ∀ x ∈ (BookSwap.reject s id user).1.books, _
    rw [reject_store]; exact hsame

theorem Call.run_ownedBy {s : Store} {id owner : ObjectId} (h : OwnedBy s id owner) (c : Call) :
    OwnedBy (c.run s).1 id owner := by
  obtain ⟨hn, hb⟩ := Call.run_books s c
  refine ⟨Nat.lt_of_lt_of_le h.1 hn, ?_⟩
  intro x hx hid
  rcases hb x hx with ⟨y, hy, hxy, hown⟩ | hfresh
  · rw [hown]
    exact h.2 y hy (hxy ▸ hid)
  · have hlt := h.1
    rw [← hid, hfresh] at hlt
    exact absurd hlt (Nat.lt_irrefl _)

theorem runCalls_ownedBy {s : Store} {id owner : ObjectId} (h : OwnedBy s id owner)
    (calls : List Call) : OwnedBy (runCalls s calls) id owner := by
  induction calls generalizing s with
  | nil => exact h
  | cons c cs ih => exact ih (Call.run_ownedBy h c)

/-- C19: take any store reached from the empty store by API calls, any book b
found in it under an id, and any further sequence of API calls (addBook,
updateBook with any patch, one carrying an `owner` field included, deleteBook,
createRequest, accept, reject, by any callers); if a book is found under the
same id afterwards, its owner is b's owner. -/
theorem owner_never_changes (before calls : List Call) (id : ObjectId) (b b' : Book)
    (hb : Book.findById (runCalls {} before) id = some b)
    (hb' : Book.findById (runCalls (runCalls {} before) calls) id = some b') :
    b'.owner = b.owner := by
  have hinv := runCalls_inv Inv.empty before
  have hid : b._id = id := Book.findById_id hb
  have hmem : b ∈ (runCalls {} before).books := Book.findById_mem hb
  have h0 : OwnedBy (runCalls {} before) id b.owner :=
    ⟨hid ▸ hinv.bookFresh b hmem, fun x hx hxid => hinv.unique x hx b hmem (hxid.trans hid.symm)⟩
  exact (runCalls_ownedBy h0 calls).2 b' (Book.findById_mem hb') (Book.findById_id hb')

theorem owner_never_changes_witness :
    Book.findById (runCalls {} exampleCalls) 0 =
        some { _id := 0, owner := 1, title := "SICP, 2nd edition", author := "Abelson",
               category := "Programming", rate := 100, status := "requested" } ∧
      Book.findById (runCalls (runCalls {} exampleCalls)
          [.updateBook 0 ownerUser examplePatch none,
           .createRequest 0 otherUser { type := some "exchange" },
           .accept 1 ownerUser]) 0 = some patchedBook ∧
      patchedBook.owner = 1 :=
  ⟨by decide, by decide,
   owner_never_changes exampleCalls
     [.updateBook 0 ownerUser examplePatch none,
      .createRequest 0 otherUser { type := some "exchange" },
      .accept 1 ownerUser] 0
     { _id := 0, owner := 1, title := "SICP, 2nd edition", author := "Abelson",
       category := "Programming", rate := 100, status := "requested" }
     patchedBook (by decide) (by decide)⟩

/-! ## The stored rate -/

theorem Book.save_old_or_valid {s s' : Store} {book : Book} (hs : Book.save s book = some s') :
    s'.requests = s.requests ∧ ∀ x ∈ s'.books, x ∈ s.books ∨ x.validate = true := by
  unfold Book.save at hs
  split at hs
  · rename_i hv
    simp only [Option.some.injEq] at hs
    subst hs
    refine ⟨rfl, ?_⟩
    intro x hx
    simp only [List.mem_map] at hx
    obtain ⟨y, hy, hyx⟩ := hx
    by_cases hc : (y._id == book._id) = true
    · rw [if_pos hc] at hyx
      exact Or.inr (hyx ▸ hv)
    · rw [if_neg hc] at hyx
      exact Or.inl (hyx ▸ hy)
  · simp at hs

/-- Every book stored after an API call was stored before it or satisfies the
schema; the requests stored before it are still stored, in place, possibly
followed by new ones. -/
theorem Call.run_effect (s : Store) (c : Call) :
    (∀ x ∈ (c.run s).1.books, x ∈ s.books ∨ x.validate = true) ∧
      ∃ added, (c.run s).1.requests = s.requests ++ added := by
  have hsame : (∀ x ∈ s.books, x ∈ s.books ∨ x.validate = true) ∧
      ∃ added, s.requests = s.requests ++ added :=
    ⟨fun x hx => Or.inl hx, [], by simp⟩
  cases c with
  | addBook user body file =>
    show (∀ x ∈ (BookSwap.addBook s user body file).1.books, _) ∧
      ∃ added, (BookSwap.addBook s user body file).1.requests = s.requests ++ added
    unfold BookSwap.addBook
    simp only
    split
    · exact hsame
    · split
      · exact hsame
      · split
        · rename_i s' book hc
          obtain ⟨hs, _, hv⟩ := Book.create_some hc
          subst hs
          refine ⟨?_, [], by simp⟩
          intro x hx
          simp only [List.mem_append, List.mem_singleton] at hx
          rcases hx with hx | hx
          · exact Or.inl hx
          · exact Or.inr (hx ▸ hv)
        · exact hsame
  | updateBook id user body file =>
    show (∀ x ∈ (BookSwap.updateBook s id user body file).1.books, _) ∧
      ∃ added, (BookSwap.updateBook s id user body file).1.requests = s.requests ++ added
    unfold BookSwap.updateBook
    split
    · exact hsame
    · rename_i book hfind
      split
      · exact hsame
      · split
        · rename_i s' book' hsave
          cases hp : applyPatch book body file with
          | none => simp [hp] at hsave
          | some patched =>
            simp only [hp, Option.some_bind, Option.map_eq_some'] at hsave
            obtain ⟨s1, hs1, heq⟩ := hsave
            simp only [Prod.mk.injEq] at heq
            obtain ⟨h1, _⟩ := heq
            subst h1
            obtain ⟨hr, hb⟩ := Book.save_old_or_valid hs1
            exact ⟨hb, [], by simp [hr]⟩
        · exact hsame
  | deleteBook id user =>
    show (∀ x ∈ (BookSwap.deleteBook s id user).1.books, _) ∧
      ∃ added, (BookSwap.deleteBook s id user).1.requests = s.requests ++ added
    unfold BookSwap.deleteBook
    split
    · exact hsame
    · split
      · exact hsame
      · exact ⟨fun x hx => Or.inl (List.mem_filter.mp hx).1, [], by simp [Book.deleteOne]⟩
  | createRequest id user body =>
    show (∀ x ∈ (BookSwap.createRequest s id user body).1.books, _) ∧
      ∃ added, (BookSwap.createRequest s id user body).1.requests = s.requests ++ added
    unfold BookSwap.createRequest
    split
    · exact hsame
    · split
      · exact hsame
      · split
        · exact hsame
        · split
          · exact hsame
          · rename_i s1 request hcreate
            unfold Request.create at hcreate
            simp only at hcreate
            split at hcreate
            · simp only [Option.some.injEq, Prod.mk.injEq] at hcreate
              obtain ⟨hs1, hreq⟩ := hcreate
              have hb1 : s1.books = s.books := by rw [← hs1]
              have hr1 : s1.requests = s.requests ++ [request] := by rw [← hs1, ← hreq]
              simp only
              split
              · exact ⟨fun x hx => Or.inl (hb1 ▸ hx), [request], hr1⟩
              · rename_i s2 hsave
                obtain ⟨hr, hb⟩ := Book.save_old_or_valid hsave
                refine ⟨?_, [request], by rw [hr, hr1]⟩
                intro x hx
                rcases hb x hx with h | h
                · exact Or.inl (hb1 ▸ h)
                · exact Or.inr h
            · simp at hcreate
  | accept id user =>
    show (∀ x ∈ (BookSwap.accept s id user).1.books, _) ∧
      ∃ added, (BookSwap.accept s id user).1.requests = s.requests ++ added
    rw [accept_store]; exact hsame
  | reject id user =>
    show (∀ x ∈ (BookSwap.reject s id user).1.books, _) ∧
      ∃ added, (BookSwap.reject s id user).1.requests = s.requests ++ added
    rw [reject_store]; exact hsame

/-- C23 (counterexample): a login with an email that matches no user and a
login with a stored email and a wrong password are both answered with status
400, which is neither 401 nor 403. -/
theorem login_failure_is_400 :
    (login exampleBcrypt exampleJwt exampleUsers
        { email := some "nobody@example.com", password := some "secret1" }).status? =
      some 400 ∧
    (login exampleBcrypt exampleJwt exampleUsers
        { email := some "owner@example.com", password := some "wrong" }).status? =
      some 400 ∧
    (400 : Nat) ≠ 401 ∧ (400 : Nat) ≠ 403 := by
  decide

/-- C23 (amended): for every user store, a login with an email that matches no
user, and a login with the email of a stored user and a password that
`bcrypt.compare` rejects, are answered with HTTP status 400. -/
theorem login_failure_status (bcrypt : Bcrypt) (jwt : Jwt) (us : UserStore)
    (email password : String)
    (h : User.findOneByEmail us (some email) = none ∨
      ∃ u, User.findOneByEmail us (some email) = some u ∧
        bcrypt.compare password u.passwordHash = false) :
    (login bcrypt jwt us { email := some email, password := some password }).status? =
      some 400 := by
  rcases h with h | ⟨u, hu, hc⟩
  · simp only [login, h, Outcome.status?]
  · simp only [login, hu, hc, Bool.not_false, if_true, Outcome.status?]

theorem login_failure_status_witness :
    (login exampleBcrypt exampleJwt exampleUsers
        { email := some "other@example.com", password := some "secret1" }).status? =
      some 400 :=
  login_failure_status exampleBcrypt exampleJwt exampleUsers "other@example.com" "secret1"
    (Or.inr ⟨{ _id := 2, name := "Binu", department := "ECE", registerNumber := "R002",
               yearOfStudy := 2, email := "other@example.com",
               passwordHash := "salt2$secret2" }, by decide, by decide⟩)

/-- C24 (evaluation at the failing input): when a storage operation rejects
inside one of the four handlers of routes/requests.js, no response is written
and the rejection leaves the handler, these handlers having no `try`; every
handler of routes/books.js and routes/auth.js that performs a storage
operation answers 500 from its `catch`. -/
theorem requests_routes_do_not_catch :
    Handler.onStorageFailure .listSent = .threw "MongoError" ∧
    Handler.onStorageFailure .listReceived = .threw "MongoError" ∧
    Handler.onStorageFailure .accept = .threw "MongoError" ∧
    Handler.onStorageFailure .reject = .threw "MongoError" ∧
    (∀ h : Handler, h.usesStorage = true →
      h ≠ .listSent → h ≠ .listReceived → h ≠ .accept → h ≠ .reject →
      (Handler.onStorageFailure h).status? = some 500) := by
  refine ⟨rfl, rfl, rfl, rfl, ?_⟩
  intro h
  cases h <;> decide

/-! ## The requests collection under the API -/

theorem runCalls_requests_length (s : Store) (calls : List Call) :
    s.requests.length ≤ (runCalls s calls).requests.length := by
  induction calls generalizing s with
  | nil => exact Nat.le_refl _
  | cons c cs ih =>
    obtain ⟨added, hadd⟩ := (Call.run_effect s c).2
    have h1 : s.requests.length ≤ (c.run s).1.requests.length := by
      rw [hadd, List.length_append]
      exact Nat.le_add_right _ _
    exact Nat.le_trans h1 (ih (c.run s).1)

/-- C25: every API call other than accept and reject returns the stored
requests as they were, in place, possibly followed by new ones; after accept
and after reject on an id there are as many requests as before, every request
stored before has a counterpart that agrees with it in id, book, requester,
owner, type and message, and is the same request when its id is not the
targeted one; and over any sequence of API calls the number of stored
requests does not decrease. -/
theorem requests_frame (s : Store) :
    (∀ c : Call, c.isLedger = false →
      ∃ added, (c.run s).1.requests = s.requests ++ added) ∧
    (∀ id user,
      (accept s id user).1.requests.length = s.requests.length ∧
      ∀ r ∈ s.requests, ∃ r' ∈ (accept s id user).1.requests,
        sameButStatus r r' ∧ (r._id ≠ id → r' = r)) ∧
    (∀ id user,
      (reject s id user).1.requests.length = s.requests.length ∧
      ∀ r ∈ s.requests, ∃ r' ∈ (reject s id user).1.requests,
        sameButStatus r r' ∧ (r._id ≠ id → r' = r)) ∧
    (∀ calls : List Call, s.requests.length ≤ (runCalls s calls).requests.length) := by
  refine ⟨fun c _ => (Call.run_effect s c).2, ?_, ?_, runCalls_requests_length s⟩
  · intro id user
    rw [accept_store]
    exact ⟨rfl, fun r hr => ⟨r, hr, ⟨rfl, rfl, rfl, rfl, rfl, rfl⟩, fun _ => rfl⟩⟩
  · intro id user
    rw [reject_store]
    exact ⟨rfl, fun r hr => ⟨r, hr, ⟨rfl, rfl, rfl, rfl, rfl, rfl⟩, fun _ => rfl⟩⟩

theorem requests_frame_witness :
    (Call.deleteBook 0 ownerUser).isLedger = false ∧
    ∃ added, (Call.run exampleStore (.deleteBook 0 ownerUser)).1.requests =
      exampleStore.requests ++ added :=
  ⟨by decide, (requests_frame exampleStore).1 (.deleteBook 0 ownerUser) (by decide)⟩

/-- C26 (evaluation at the failing input): after `orphanCalls` request 1 is
stored, user 1 is its owner and its book 0 is gone, yet `accept` by user 1
does not succeed: the owner test raises a TypeError, no response is written
and the request stays "pending". -/
theorem accept_orphan_throws :
    runCalls {} orphanCalls = orphanStore ∧
    (Request.findById orphanStore 1).map (fun r => (r.owner, r.book, r.status)) =
      some (1, 0, "pending") ∧
    Book.findById orphanStore 0 = none ∧
    accept orphanStore 1 ownerUser = (orphanStore, .threw "TypeError") := by
  decide

/-- C27 (evaluation at the failing input): in `exampleStore` neither the first
`accept` of request 1 by its owner nor a second one right after it succeeds:
both raise a TypeError and write no response; the store is the same after
both, with the request still "pending" and the book still "requested". -/
theorem accept_twice_throws :
    (accept exampleStore 1 ownerUser).2 = .threw "TypeError" ∧
    accept (accept exampleStore 1 ownerUser).1 1 ownerUser =
      ((accept exampleStore 1 ownerUser).1, .threw "TypeError") ∧
    ((accept (accept exampleStore 1 ownerUser).1 1 ownerUser).1.requests.map
      fun r => r.status) = ["pending"] ∧
    ((accept (accept exampleStore 1 ownerUser).1 1 ownerUser).1.books.map
      fun b => b.status) = ["requested"] := by
  decide

/-! ## Deleting a book -/

theorem find?_filter_ne_id (books : List Book) (id id' : ObjectId) (hne : id' ≠ id) :
    (books.filter fun x => x._id != id).find? (fun x => x._id == id') =
      books.find? (fun x => x._id == id') := by
  induction books with
  | nil => rfl
  | cons x xs ih =>
    by_cases hx : x._id = id
    · have h1 : (x._id != id) = false := by simp [hx]
      have h2 : (x._id == id') = false := by
        simp only [beq_eq_false_iff_ne, ne_eq, hx]
        exact fun h => hne h.symm
      simp only [List.filter_cons, h1, Bool.false_eq_true, if_false, List.find?_cons, h2]
      exact ih
    · have h1 : (x._id != id) = true := by simpa using hx
      simp only [List.filter_cons, h1, if_true, List.find?_cons]
      rw [ih]

theorem find?_filter_id (books : List Book) (id : ObjectId) :
    (books.filter fun x => x._id != id).find? (fun x => x._id == id) = none := by
  rw [List.find?_eq_none]
  intro x hx
  have := (List.mem_filter.mp hx).2
  simpa using this

/-- C28: for every delete that is answered 200: a book b owned by the caller
was found under the id; the books stored afterwards are exactly the books
stored before whose id is not that id, in the same order and unchanged, so no
book is found under the id any more and every other id finds what it found
before; the requests collection is the same list as before, so every request
that named b as its book is still stored with the same status and still names
it. -/
theorem deleteBook_no_cascade (s s' : Store) (id : ObjectId) (user : ReqUser) (body' : Body)
    (h : deleteBook s id user = (s', .response 200 body')) :
    ∃ b, Book.findById s id = some b ∧ b.owner = user.id ∧
      s'.books = (s.books.filter fun x => x._id != id) ∧
      (∀ x, x ∈ s'.books ↔ x ∈ s.books ∧ x._id ≠ id) ∧
      Book.findById s' id = none ∧
      (∀ id', id' ≠ id → Book.findById s' id' = Book.findById s id') ∧
      s'.requests = s.requests ∧
      (∀ r ∈ s.requests, r.book = id → r ∈ s'.requests) := by
  unfold deleteBook at h
  split at h
  · simp at h
  · rename_i b hfind
    split at h
    · simp at h
    · rename_i hown
      simp only [Prod.mk.injEq] at h
      obtain ⟨hs, _⟩ := h
      have hid : b._id = id := Book.findById_id hfind
      have hbooks : s'.books = (s.books.filter fun x => x._id != id) := by
        rw [← hs, ← hid]
        rfl
      have hreq : s'.requests = s.requests := by rw [← hs]; rfl
      refine ⟨b, hfind, ?_, hbooks, ?_, ?_, ?_, hreq, ?_⟩
      · simpa using hown
      · intro x
        rw [hbooks]
        simp [List.mem_filter]
      · simp only [Book.findById, hbooks]
        exact find?_filter_id s.books id
      · intro id' hne
        simp only [Book.findById, hbooks]
        exact find?_filter_ne_id s.books id id' hne
      · intro r hr _
        rw [hreq]
        exact hr

theorem deleteBook_no_cascade_witness :
    ∃ b, Book.findById exampleStore 0 = some b ∧ b.owner = ownerUser.id ∧
      (deleteBook exampleStore 0 ownerUser).1.books =
        (exampleStore.books.filter fun x => x._id != 0) ∧
      (∀ x, x ∈ (deleteBook exampleStore 0 ownerUser).1.books ↔
        x ∈ exampleStore.books ∧ x._id ≠ 0) ∧
      Book.findById (deleteBook exampleStore 0 ownerUser).1 0 = none ∧
      (∀ id', id' ≠ 0 →
        Book.findById (deleteBook exampleStore 0 ownerUser).1 id' =
          Book.findById exampleStore id') ∧
      (deleteBook exampleStore 0 ownerUser).1.requests = exampleStore.requests ∧
      (∀ r ∈ exampleStore.requests, r.book = 0 →
        r ∈ (deleteBook exampleStore 0 ownerUser).1.requests) :=
  deleteBook_no_cascade exampleStore (deleteBook exampleStore 0 ownerUser).1 0 ownerUser
    (.message "Book deleted successfully") (by decide)

/-! ## Routing -/

/-- C29: no registration of the books router matches GET `/requests/sent`, GET
`/requests/received`, PATCH `/requests/<id>/accept` or PATCH
`/requests/<id>/reject` (the paths left after the mount point `/api/books`),
whatever the id; the app dispatches the two GET requests to the list handlers
of the requests router and, for every non-empty id segment, the two PATCH
requests to its accept and reject handlers. -/
theorem ledger_routes_not_captured :
    (∀ r ∈ booksRouter,
      r.matches .GET ["requests", "sent"] = false ∧
      r.matches .GET ["requests", "received"] = false) ∧
    (∀ (id : String), ∀ r ∈ booksRouter,
      r.matches .PATCH ["requests", id, "accept"] = false ∧
      r.matches .PATCH ["requests", id, "reject"] = false) ∧
    dispatch .GET ["api", "books", "requests", "sent"] =
      some { method := .GET, path := [.lit "sent"], auth := true, handler := .listSent } ∧
    dispatch .GET ["api", "books", "requests", "received"] =
      some { method := .GET, path := [.lit "received"], auth := true,
             handler := .listReceived } ∧
    (∀ (id : String), id ≠ "" →
      dispatch .PATCH ["api", "books", "requests", id, "accept"] =
        some { method := .PATCH, path := [.param "id", .lit "accept"], auth := true,
               handler := .accept } ∧
      dispatch .PATCH ["api", "books", "requests", id, "reject"] =
        some { method := .PATCH, path := [.param "id", .lit "reject"], auth := true,
               handler := .reject }) := by
  refine ⟨by decide, ?_, by decide, by decide, ?_⟩
  · intro id r hr
    simp only [booksRouter, List.mem_cons, List.mem_singleton, List.not_mem_nil, or_false] at hr
    rcases hr with h | h | h | h | h | h | h <;> subst h <;>
      exact ⟨by simp [Route.matches], by simp [Route.matches]⟩
  · intro id hne
    have h1 : (id != "") = true := by simpa using hne
    constructor
    · simp [dispatch, dispatchIn, mounts, stripMount, routerDispatch, booksRouter, authRouter,
        requestsRouter, Route.matches, pathMatches, Segment.matches, h1]
    · simp [dispatch, dispatchIn, mounts, stripMount, routerDispatch, booksRouter, authRouter,
        requestsRouter, Route.matches, pathMatches, Segment.matches, h1]

theorem ledger_routes_not_captured_witness :
    dispatch .PATCH ["api", "books", "requests", "65f0c1", "accept"] =
        some { method := .PATCH, path := [.param "id", .lit "accept"], auth := true,
               handler := .accept } ∧
      dispatch .PATCH ["api", "books", "requests", "65f0c1", "reject"] =
        some { method := .PATCH, path := [.param "id", .lit "reject"], auth := true,
               handler := .reject } :=
  ledger_routes_not_captured.2.2.2.2 "65f0c1" (by decide)

/-! ## The client's filter -/

theorem includesChars_iff (text needle : List Char) :
    includesChars text needle = true ↔ needle <:+: text := by
  unfold includesChars
  rw [List.any_eq_true, List.infix_iff_prefix_suffix]
  constructor
  · rintro ⟨t, ht, hp⟩
    exact ⟨t, List.isPrefixOf_iff_prefix.mp hp, (List.mem_tails _ _).mp ht⟩
  · rintro ⟨t, hp, ht⟩
    exact ⟨t, (List.mem_tails _ _).mpr ht, List.isPrefixOf_iff_prefix.mpr hp⟩

/-- C30: for every `toLowerCase`, `applyFilters` is a filter of `booksList`
(so the books kept are in their original order, each kept or dropped as a
whole) that keeps a book exactly when its category is the given one, if a
category is given (neither null nor empty), and the lower-cased search text
occurs in its lower-cased title, if the search text is not empty; with no
category and an empty search text it returns the whole list; and applying it
to its own result with the same arguments returns that result. -/
theorem applyFilters_exact (toLowerCase : String → String) (booksList : List BookView)
    (searchText : String) (category : Option String) :
    (∃ keep : BookView → Bool,
      applyFilters toLowerCase booksList searchText category = booksList.filter keep ∧
      ∀ b, keep b = true ↔
        ((∀ c, category = some c → c ≠ "" → b.category = c) ∧
          (searchText ≠ "" →
            (toLowerCase searchText).toList <:+: (toLowerCase b.title).toList))) ∧
    (applyFilters toLowerCase booksList searchText category).Sublist booksList ∧
    applyFilters toLowerCase booksList "" none = booksList ∧
    applyFilters toLowerCase (applyFilters toLowerCase booksList searchText category)
        searchText category =
      applyFilters toLowerCase booksList searchText category := by
  refine ⟨⟨_, rfl, ?_⟩, List.filter_sublist _, ?_, ?_⟩
  · intro b
    simp only [Bool.and_eq_true, Bool.or_eq_true, Bool.not_eq_true', beq_iff_eq,
      includesChars_iff]
    constructor
    · rintro ⟨hcat, hsearch⟩
      refine ⟨?_, ?_⟩
      · intro c hc hne
        rcases hcat with h | h
        · rw [hc] at h
          simp [truthy, hne] at h
        · rw [hc] at h
          exact Option.some.inj h
      · intro hne
        rcases hsearch with h | h
        · exact absurd h hne
        · exact h
    · rintro ⟨hcat, hsearch⟩
      refine ⟨?_, ?_⟩
      · cases hc : category with
        | none => exact Or.inl rfl
        | some c =>
          by_cases hne : c = ""
          · exact Or.inl (by simp [truthy, hne])
          · exact Or.inr (by rw [hcat c hc hne])
      · by_cases hne : searchText = ""
        · exact Or.inl hne
        · exact Or.inr (hsearch hne)
  · simp [applyFilters, truthy]
  · simp only [applyFilters, List.filter_filter, Bool.and_self]

theorem applyFilters_exact_witness :
    applyFilters asciiLower
        [exampleView 0 "Deep Learning" "AI", exampleView 1 "Learning SQL" "DBMS",
         exampleView 2 "Networks" "Networking", exampleView 3 "Machine LEARNING" "AI"]
        "learn" (some "AI") =
      [exampleView 0 "Deep Learning" "AI", exampleView 3 "Machine LEARNING" "AI"] ∧
    applyFilters asciiLower
        [exampleView 0 "Deep Learning" "AI", exampleView 1 "Learning SQL" "DBMS"] "" none =
      [exampleView 0 "Deep Learning" "AI", exampleView 1 "Learning SQL" "DBMS"] :=
  ⟨by decide,
   (applyFilters_exact asciiLower
      [exampleView 0 "Deep Learning" "AI", exampleView 1 "Learning SQL" "DBMS"] "learn"
      (some "AI")).2.2.1⟩

end BookSwap
